import Mathlib

/-!
Formal model of the aetherfall turn-based logistics engine (src/model.py)
and of the project/goal/task completion tracker (src/project_manager.py),
together with theorems checking the specified properties of the engine.

Modelling conventions.  Python dictionaries are modelled as association
lists kept in insertion order, because both the iteration order and the
insertion-order-preserving update of dict entries are observable in the
source (resource selection iterates the inventory dict).  Mutation of an
object held in the unit registry is modelled by an explicit write-back at
the registry key used to fetch the object, with a re-read between the two
mutations of a transfer so that aliasing (source and destination resolving
to the same registry entry) behaves as in Python.  The wall-clock
timestamp that GameState.log prepends to every event line is modelled as
an explicit stamp argument supplied by the environment.
-/

namespace Aetherfall

/-! ## Inventories (Python dict resource to int, src/model.py line 8) -/

abbrev Inventory := List (String × Int)

/-- Python dict lookup with default 0; the first binding of the key wins. -/
def invGet (inv : Inventory) (k : String) : Int :=
  match inv.find? (fun p => p.1 == k) with
  | some p => p.2
  | none => 0

/-- Python dict assignment: replaces the binding of the key in place, or
appends a new binding at the end. -/
def invSet : Inventory → String → Int → Inventory
  | [], k, v => [(k, v)]
  | p :: rest, k, v => if p.1 = k then (k, v) :: rest else p :: invSet rest k v

/-- Python dict pop of a key; dict keys are unique, so removing the key is
filtering it out. -/
def invPop (inv : Inventory) (k : String) : Inventory :=
  inv.filter (fun p => !(p.1 == k))

/-- Every stored quantity is positive (the dict never shows a binding that
is zero or negative). -/
def allPos (inv : Inventory) : Prop := ∀ p ∈ inv, 0 < p.2

instance (inv : Inventory) : Decidable (allPos inv) := by
  unfold allPos; infer_instance

/-! ## Recipe and ProcessingUnit (src/model.py lines 11-67)

The presentation-only fields pos (a float pair never read by the engine)
and notes are omitted; floats do not occur anywhere else in the engine. -/

structure Recipe where
  name : String
  duration_turns : Int := 1
  inputs : Inventory := []
  outputs : Inventory := []
  transfer_resource : Option String := none
  deriving DecidableEq

structure ProcessingUnit where
  id : String
  name : String
  kind : String
  input_id : Option String := none
  output_id : Option String := none
  inventory : Inventory := []
  recipe : Option Recipe := none
  status : String := "Running"
  turn_progress : Int := 0
  deriving DecidableEq

/-- ProcessingUnit.inv_get (src/model.py lines 53-54). -/
def ProcessingUnit.inv_get (u : ProcessingUnit) (item : String) : Int :=
  invGet u.inventory item

/-- ProcessingUnit.inv_add (src/model.py lines 56-61): early return on zero,
write the new value, then drop the binding when it is not positive. -/
def ProcessingUnit.inv_add (u : ProcessingUnit) (item : String) (qty : Int) :
    ProcessingUnit :=
  if qty = 0 then u
  else
    let inv1 := invSet u.inventory item (u.inv_get item + qty)
    if invGet inv1 item ≤ 0 then { u with inventory := invPop inv1 item }
    else { u with inventory := inv1 }

/-- ProcessingUnit.inv_remove (src/model.py lines 63-67); the Bool is the
Python return value. -/
def ProcessingUnit.inv_remove (u : ProcessingUnit) (item : String) (qty : Int) :
    Bool × ProcessingUnit :=
  if u.inv_get item < qty then (false, u)
  else (true, u.inv_add item (-qty))

/-! ## Basic inventory lemmas -/

theorem invGet_nil (k : String) : invGet [] k = 0 := rfl

theorem invGet_cons_self (p : String × Int) (rest : Inventory) (k : String)
    (hp : p.1 = k) : invGet (p :: rest) k = p.2 := by
  unfold invGet
  rw [List.find?_cons_of_pos _ (by simp [hp])]

theorem invGet_cons_ne (p : String × Int) (rest : Inventory) (k : String)
    (hp : p.1 ≠ k) : invGet (p :: rest) k = invGet rest k := by
  unfold invGet
  rw [List.find?_cons_of_neg _ (by simp [hp])]

theorem invPop_cons (p : String × Int) (rest : Inventory) (k : String) :
    invPop (p :: rest) k =
      if p.1 = k then invPop rest k else p :: invPop rest k := by
  by_cases hp : p.1 = k <;> simp [invPop, hp]

theorem invGet_invSet_self (inv : Inventory) (k : String) (v : Int) :
    invGet (invSet inv k v) k = v := by
  induction inv with
  | nil => simp [invSet, invGet]
  | cons p rest ih =>
    by_cases h : p.1 = k
    · simp [invSet, h, invGet_cons_self]
    · rw [invSet, if_neg h, invGet_cons_ne p _ k h]
      exact ih

theorem invGet_invSet_ne (inv : Inventory) (k k' : String) (v : Int)
    (h : k' ≠ k) : invGet (invSet inv k v) k' = invGet inv k' := by
  induction inv with
  | nil => simp [invSet, invGet, Ne.symm h]
  | cons p rest ih =>
    by_cases hp : p.1 = k
    · rw [invSet, if_pos hp, invGet_cons_ne (k, v) rest k' (Ne.symm h),
        invGet_cons_ne p rest k' (by rw [hp]; exact Ne.symm h)]
    · rw [invSet, if_neg hp]
      by_cases hp' : p.1 = k'
      · rw [invGet_cons_self p _ k' hp', invGet_cons_self p _ k' hp']
      · rw [invGet_cons_ne p _ k' hp', invGet_cons_ne p _ k' hp']
        exact ih

theorem invGet_invPop_self (inv : Inventory) (k : String) :
    invGet (invPop inv k) k = 0 := by
  induction inv with
  | nil => simp [invPop, invGet]
  | cons p rest ih =>
    rw [invPop_cons]
    by_cases hp : p.1 = k
    · rw [if_pos hp]; exact ih
    · rw [if_neg hp, invGet_cons_ne p _ k hp]; exact ih

theorem invGet_invPop_ne (inv : Inventory) (k k' : String) (h : k' ≠ k) :
    invGet (invPop inv k) k' = invGet inv k' := by
  induction inv with
  | nil => simp [invPop, invGet]
  | cons p rest ih =>
    rw [invPop_cons]
    by_cases hp : p.1 = k
    · rw [if_pos hp, invGet_cons_ne p rest k' (by rw [hp]; exact Ne.symm h)]
      exact ih
    · rw [if_neg hp]
      by_cases hp' : p.1 = k'
      · rw [invGet_cons_self p _ k' hp', invGet_cons_self p _ k' hp']
      · rw [invGet_cons_ne p _ k' hp', invGet_cons_ne p _ k' hp']
        exact ih

theorem mem_invSet (inv : Inventory) (k : String) (v : Int)
    (p : String × Int) (hp : p ∈ invSet inv k v) : p = (k, v) ∨ p ∈ inv := by
  induction inv with
  | nil => simpa [invSet] using hp
  | cons q rest ih =>
    by_cases hq : q.1 = k
    · simp [invSet, hq] at hp
      rcases hp with h | h
      · exact Or.inl h
      · exact Or.inr (List.mem_cons_of_mem _ h)
    · simp [invSet, hq] at hp
      rcases hp with h | h
      · exact Or.inr (by simp [h])
      · rcases ih h with h' | h'
        · exact Or.inl h'
        · exact Or.inr (List.mem_cons_of_mem _ h')

theorem invGet_nonneg (inv : Inventory) (k : String) (h : allPos inv) :
    0 ≤ invGet inv k := by
  unfold invGet
  cases hf : inv.find? (fun p => p.1 == k) with
  | none => simp
  | some p => exact le_of_lt (h p (List.mem_of_find?_eq_some hf))

theorem allPos_inv_add (u : ProcessingUnit) (item : String) (qty : Int)
    (h : allPos u.inventory) : allPos (u.inv_add item qty).inventory := by
  unfold ProcessingUnit.inv_add
  split
  · exact h
  · dsimp only
    split
    · intro p hp
      have hmem := List.mem_filter.mp hp
      rcases mem_invSet _ _ _ _ hmem.1 with he | ho
      · exfalso
        have : p.1 = item := by rw [he]
        simpa [this] using hmem.2
      · exact h p ho
    · rename_i hpos
      intro p hp
      rcases mem_invSet _ _ _ _ hp with he | ho
      · have : invGet (invSet u.inventory item (u.inv_get item + qty)) item =
            u.inv_get item + qty := invGet_invSet_self _ _ _
        rw [this] at hpos
        rw [he]
        exact lt_of_not_le hpos
      · exact h p ho

theorem allPos_inv_remove (u : ProcessingUnit) (item : String) (qty : Int)
    (h : allPos u.inventory) : allPos (u.inv_remove item qty).2.inventory := by
  unfold ProcessingUnit.inv_remove
  split
  · exact h
  · exact allPos_inv_add u item (-qty) h

/-! ## C1: inventory non-negativity over call sequences -/

/-- A single inventory call of the claimed interface. -/
inductive InvOp where
  | add (item : String) (qty : Int)
  | remove (item : String) (qty : Int)
  deriving DecidableEq

def applyInvOp (u : ProcessingUnit) : InvOp → ProcessingUnit
  | .add item qty => u.inv_add item qty
  | .remove item qty => (u.inv_remove item qty).2

def applyInvOps (u : ProcessingUnit) (ops : List InvOp) : ProcessingUnit :=
  ops.foldl applyInvOp u

theorem allPos_applyInvOps (ops : List InvOp) :
    ∀ u : ProcessingUnit, allPos u.inventory →
      allPos (applyInvOps u ops).inventory := by
  induction ops with
  | nil => intro u h; exact h
  | cons op rest ih =>
    intro u h
    have h1 : allPos (applyInvOp u op).inventory := by
      cases op with
      | add item qty => exact allPos_inv_add u item qty h
      | remove item qty => exact allPos_inv_remove u item qty h
    exact ih (applyInvOp u op) h1

/-- C1: starting from an inventory with only positive quantities, every
sequence of inv_add and inv_remove calls keeps every stored quantity
positive (so never negative); a binding whose quantity reaches zero or
below is removed from the mapping rather than retained; and inv_remove
returns false and leaves the unit unchanged whenever the current quantity
of the item is below the requested quantity. -/
theorem claim_C1_inventory_nonneg (u : ProcessingUnit) (ops : List InvOp)
    (h : allPos u.inventory) :
    allPos (applyInvOps u ops).inventory ∧
    (∀ item qty, qty ≠ 0 → u.inv_get item + qty ≤ 0 →
      ∀ p ∈ (u.inv_add item qty).inventory, p.1 ≠ item) ∧
    (∀ item qty, u.inv_get item < qty → u.inv_remove item qty = (false, u)) := by
  refine ⟨allPos_applyInvOps ops u h, ?_, ?_⟩
  · intro item qty hq hle p hp
    unfold ProcessingUnit.inv_add at hp
    rw [if_neg hq] at hp
    dsimp only at hp
    rw [if_pos (by rwa [invGet_invSet_self])] at hp
    have hmem := List.mem_filter.mp hp
    intro hcontra
    simp [hcontra] at hmem
  · intro item qty hlt
    unfold ProcessingUnit.inv_remove
    rw [if_pos hlt]

def c1DemoUnit : ProcessingUnit :=
  { id := "central_supply", name := "Central Supply", kind := "CentralSupply",
    inventory := [("Food Rations", 52), ("Steel", 10), ("Copper Wire", 20)] }

def c1DemoOps : List InvOp :=
  [.remove "Steel" 3, .add "Steel" (-7), .add "Wood" 5, .remove "Wood" 99,
   .add "Copper Wire" (-20), .remove "Food Rations" 52]

theorem claim_C1_inventory_nonneg_witness :
    allPos (applyInvOps c1DemoUnit c1DemoOps).inventory ∧
    (∀ item qty, qty ≠ 0 → c1DemoUnit.inv_get item + qty ≤ 0 →
      ∀ p ∈ (c1DemoUnit.inv_add item qty).inventory, p.1 ≠ item) ∧
    (∀ item qty, c1DemoUnit.inv_get item < qty →
      c1DemoUnit.inv_remove item qty = (false, c1DemoUnit)) :=
  claim_C1_inventory_nonneg c1DemoUnit c1DemoOps (by decide)

/-! ## Project, Goal, Task (three-level tree)

The dataclasses are referenced from src/tasks_loader.py and
src/project_manager.py but are not among the provided source files; the
fields are the ones the loader constructs, and the derived completed flag
on Goal and Project is the one the spec describes. -/

structure Task where
  id : String
  name : String
  required : Bool
  completed : Bool := false
  deriving DecidableEq

structure Goal where
  id : String
  name : String
  required : Bool
  tasks : List Task := []
  completed : Bool := false
  deriving DecidableEq

structure Project where
  id : String
  name : String
  required : Bool
  goals : List Goal := []
  completed : Bool := false
  deriving DecidableEq

/-! ## GameState (src/model.py lines 70-102) -/

structure GameState where
  units : List (String × ProcessingUnit) := []
  selected_unit_id : Option String := none
  events : List String := []
  paused : Bool := false
  sim_turn : Int := 0
  projects : List Project := []
  selected_pm_item : Option String := none
  deriving DecidableEq

/-- GameState.log (src/model.py lines 79-83): stamp the message, append it,
keep only the last 300 entries.  The wall-clock reading of time.strftime is
the stamp argument. -/
def GameState.log (s : GameState) (stamp msg : String) : GameState :=
  let evs := s.events ++ ["[" ++ stamp ++ "] " ++ msg]
  { s with events := if 300 < evs.length then evs.drop (evs.length - 300) else evs }

/-- Python dict get on the unit registry; the registry has unique keys and
the first binding wins. -/
def findUnit (units : List (String × ProcessingUnit)) (uid : String) :
    Option ProcessingUnit :=
  match units.find? (fun p => p.1 == uid) with
  | some p => some p.2
  | none => none

/-- GameState.get_unit (src/model.py lines 85-88): a falsy id (None or the
empty string) resolves to no unit. -/
def GameState.get_unit (s : GameState) (uid : Option String) :
    Option ProcessingUnit :=
  match uid with
  | none => none
  | some i => if i = "" then none else findUnit s.units i

/-- Write-back of a mutated unit object at the registry key under which it
was fetched; a key that is absent is left alone (in Python the mutation
happens through the object reference, so only existing entries are ever
written). -/
def updateUnit : List (String × ProcessingUnit) → String → ProcessingUnit →
    List (String × ProcessingUnit)
  | [], _, _ => []
  | p :: rest, uid, u =>
    if p.1 = uid then (uid, u) :: rest else p :: updateUnit rest uid u

def GameState.setUnit (s : GameState) (uid : String) (u : ProcessingUnit) :
    GameState :=
  { s with units := updateUnit s.units uid u }

def GameState.setUnitAt (s : GameState) (uid : Option String)
    (u : ProcessingUnit) : GameState :=
  match uid with
  | none => s
  | some i => s.setUnit i u

/-! ## Simulation (src/model.py lines 177-283) -/

/-- Fallback resource selection: the first inventory binding with a
positive quantity, in dict insertion order (src/model.py lines 227-229). -/
def chooseAny : Inventory → Option String
  | [] => none
  | p :: rest => if 0 < p.2 then some p.1 else chooseAny rest

/-- Simulation._choose_transfer_item (src/model.py lines 223-230): prefer
the given resource when it is truthy and the source holds a positive
quantity of it, otherwise pick any available item. -/
def choose_transfer_item (source : ProcessingUnit) (preferred : Option String) :
    Option String :=
  match preferred with
  | some p =>
    if p ≠ "" ∧ 0 < source.inv_get p then some p
    else chooseAny source.inventory
  | none => chooseAny source.inventory

/-- The transfer_resource of an optional recipe (the Python expression
u.recipe.transfer_resource if u.recipe else None). -/
def recipePref (r? : Option Recipe) : Option String :=
  match r? with
  | some r => r.transfer_resource
  | none => none

namespace Simulation

/-- Simulation._do_transfer (src/model.py lines 232-246).  The guard
`if not item` is Python falsiness, abandoning the action both when no
resource was chosen (None) and when the chosen resource id is the empty
string.  The two mutations through object references become two
write-backs with a re-read of the destination in between, so that an
aliased source and destination (equal link keys) behave as the single
Python object would. -/
def do_transfer (s : GameState) (u : ProcessingUnit) (stamp : String) :
    GameState :=
  match s.get_unit u.input_id, s.get_unit u.output_id with
  | some src, some dst =>
    match choose_transfer_item src (recipePref u.recipe) with
    | none => s
    | some item =>
      if item = "" then s
      else
        let rem := src.inv_remove item 1
        if rem.1 then
          let s1 := s.setUnitAt u.input_id rem.2
          let dst1 := (s1.get_unit u.output_id).getD dst
          let s2 := s1.setUnitAt u.output_id (dst1.inv_add item 1)
          s2.log stamp (u.name ++ ": moved 1 " ++ item ++ " from " ++
            src.name ++ " -> " ++ dst.name)
        else s
  | _, _ => s

/-- Simulation._do_pile_output (src/model.py lines 248-261); uid is the
registry key of the pile object.  As in do_transfer, the Python guard
`if not item` also abandons a chosen empty-string resource id. -/
def do_pile_output (s : GameState) (uid : String) (pile : ProcessingUnit)
    (stamp : String) : GameState :=
  match s.get_unit pile.output_id with
  | none => s
  | some dst =>
    match choose_transfer_item pile (recipePref pile.recipe) with
    | none => s
    | some item =>
      if item = "" then s
      else
        let rem := pile.inv_remove item 1
        if rem.1 then
          let s1 := s.setUnit uid rem.2
          let dst1 := (s1.get_unit pile.output_id).getD dst
          let s2 := s1.setUnitAt pile.output_id (dst1.inv_add item 1)
          s2.log stamp (pile.name ++ ": output 1 " ++ item ++ " -> " ++
            dst.name)
        else s

/-- The consume loop of Simulation._do_crafting (src/model.py lines
276-277); the Python code ignores the Bool result of inv_remove here. -/
def applyCraftInputs (u : ProcessingUnit) (inputs : Inventory) :
    ProcessingUnit :=
  inputs.foldl (fun acc p => (acc.inv_remove p.1 p.2).2) u

/-- The produce loop of Simulation._do_crafting (src/model.py lines
280-281). -/
def applyCraftOutputs (u : ProcessingUnit) (outputs : Inventory) :
    ProcessingUnit :=
  outputs.foldl (fun acc p => acc.inv_add p.1 p.2) u

/-- The comma-joined summary of the produced outputs in the crafting log
line (src/model.py line 283). -/
def craftSummary : Inventory → String
  | [] => ""
  | [p] => toString p.2 ++ " " ++ p.1
  | p :: rest => toString p.2 ++ " " ++ p.1 ++ ", " ++ craftSummary rest

/-- Simulation._do_crafting (src/model.py lines 263-283); uid is the
registry key of the crafting unit. -/
def do_crafting (s : GameState) (uid : String) (u : ProcessingUnit)
    (stamp : String) : GameState :=
  match u.recipe with
  | none => s
  | some r =>
    if ∃ p ∈ r.inputs, u.inv_get p.1 < p.2 then s
    else
      (s.setUnit uid
          (applyCraftOutputs (applyCraftInputs u r.inputs) r.outputs)).log
        stamp (u.name ++ ": crafted " ++ craftSummary r.outputs)

/-- Python truthiness of an optional id string: None and the empty string
are falsy. -/
def truthyId : Option String → Bool
  | none => false
  | some i => !(i == "")

/-- The action selection of Simulation.tick_turn (src/model.py lines
207-221): transfer when both links are truthy, else pile output for a
ResourcePile whose output link is not None, else crafting when the recipe
has both inputs and outputs, else nothing. -/
def dispatchAction (stamp : String) (s : GameState) (uid : String)
    (u : ProcessingUnit) (r : Recipe) : GameState :=
  if truthyId u.input_id && truthyId u.output_id then do_transfer s u stamp
  else if u.kind == "ResourcePile" && u.output_id.isSome then
    do_pile_output s uid u stamp
  else if !r.inputs.isEmpty && !r.outputs.isEmpty then
    do_crafting s uid u stamp
  else s

/-- The per-unit body of the turn loop (src/model.py lines 194-221): skip
units that are not Running or have no recipe, advance the turn counter of
the unit, and on reaching max(1, duration_turns) reset it and act. -/
def tickUnit (stamp : String) (s : GameState) (uid : String) : GameState :=
  match findUnit s.units uid with
  | none => s
  | some u =>
    if u.status ≠ "Running" then s
    else
      match u.recipe with
      | none => s
      | some r =>
        let u1 : ProcessingUnit := { u with turn_progress := u.turn_progress + 1 }
        if u1.turn_progress < max (1 : Int) r.duration_turns then
          s.setUnit uid u1
        else
          dispatchAction stamp (s.setUnit uid { u1 with turn_progress := 0 })
            uid { u1 with turn_progress := 0 } r

/-- Code-point comparison of the character lists of two strings; this is
the lexicographic order Python sorted() uses on str keys. -/
def charsLe : List Char → List Char → Bool
  | [], _ => true
  | _ :: _, [] => false
  | a :: as, b :: bs => if a = b then charsLe as bs else decide (a < b)

def strLe (a b : String) : Prop := charsLe a.data b.data = true

instance : DecidableRel strLe := fun a b => by unfold strLe; infer_instance

/-- The iteration order sorted(s.units.keys()) of the turn loop
(src/model.py line 194); registry keys are distinct, so any sort computing
the ascending code-point order gives the Python result. -/
def sortKeys (units : List (String × ProcessingUnit)) : List String :=
  (units.map Prod.fst).insertionSort strLe

/-- Simulation.tick_turn (src/model.py lines 185-221). -/
def tick_turn (s : GameState) (stamp : String) : GameState :=
  if s.paused then s
  else
    let s1 : GameState := { s with sim_turn := s.sim_turn + 1 }
    (sortKeys s1.units).foldl (tickUnit stamp) s1

/-- A run of successive tick_turn calls; each call receives the wall-clock
stamp the environment supplies for it. -/
def runTurns (s : GameState) (stamps : List String) : GameState :=
  stamps.foldl tick_turn s

end Simulation

/-! ## Lemmas about the unit-level inventory primitives -/

theorem inv_add_zero (u : ProcessingUnit) (k : String) : u.inv_add k 0 = u := by
  unfold ProcessingUnit.inv_add
  simp

theorem inv_get_inv_add_self (u : ProcessingUnit) (k : String) (q : Int)
    (hq : q ≠ 0) :
    (u.inv_add k q).inv_get k =
      if u.inv_get k + q ≤ 0 then 0 else u.inv_get k + q := by
  unfold ProcessingUnit.inv_add
  rw [if_neg hq]
  dsimp only
  have hset := invGet_invSet_self u.inventory k (u.inv_get k + q)
  by_cases hle : u.inv_get k + q ≤ 0
  · rw [if_pos (by rw [hset]; exact hle), if_pos hle]
    show invGet (invPop _ k) k = 0
    exact invGet_invPop_self _ k
  · rw [if_neg (by rw [hset]; exact hle), if_neg hle]
    exact hset

theorem inv_get_inv_add_ne (u : ProcessingUnit) (k k' : String) (q : Int)
    (h : k' ≠ k) : (u.inv_add k q).inv_get k' = u.inv_get k' := by
  unfold ProcessingUnit.inv_add
  by_cases hq : q = 0
  · rw [if_pos hq]
  · rw [if_neg hq]
    dsimp only
    split
    · show invGet (invPop (invSet u.inventory k _) k) k' = _
      rw [invGet_invPop_ne _ _ _ h, invGet_invSet_ne _ _ _ _ h]
      rfl
    · show invGet (invSet u.inventory k _) k' = _
      rw [invGet_invSet_ne _ _ _ _ h]
      rfl

theorem inv_remove_of_le (u : ProcessingUnit) (k : String) (q : Int)
    (h : q ≤ u.inv_get k) : u.inv_remove k q = (true, u.inv_add k (-q)) := by
  unfold ProcessingUnit.inv_remove
  rw [if_neg (not_lt.mpr h)]

theorem inv_get_inv_remove_self (u : ProcessingUnit) (k : String) (q : Int)
    (h : q ≤ u.inv_get k) :
    (u.inv_remove k q).2.inv_get k = u.inv_get k - q := by
  rw [inv_remove_of_le u k q h]
  by_cases hq : q = 0
  · subst hq
    simp [inv_add_zero]
  · show (u.inv_add k (-q)).inv_get k = u.inv_get k - q
    rw [inv_get_inv_add_self u k (-q) (by omega)]
    by_cases h0 : u.inv_get k + -q ≤ 0
    · rw [if_pos h0]
      omega
    · rw [if_neg h0]
      omega

theorem inv_get_inv_remove_ne (u : ProcessingUnit) (k k' : String) (q : Int)
    (h : k' ≠ k) : (u.inv_remove k q).2.inv_get k' = u.inv_get k' := by
  unfold ProcessingUnit.inv_remove
  split
  · rfl
  · exact inv_get_inv_add_ne u k k' (-q) h

theorem invGet_eq_zero_of_not_mem (inv : Inventory) (k : String)
    (h : k ∉ inv.map Prod.fst) : invGet inv k = 0 := by
  unfold invGet
  rw [List.find?_eq_none.mpr]
  intro p hp
  simp only [beq_iff_eq]
  intro he
  exact h (he ▸ List.mem_map_of_mem Prod.fst hp)

/-! ## Lemmas about the unit registry -/

theorem findUnit_cons_self (p : String × ProcessingUnit)
    (rest : List (String × ProcessingUnit)) (uid : String) (hp : p.1 = uid) :
    findUnit (p :: rest) uid = some p.2 := by
  unfold findUnit
  rw [List.find?_cons_of_pos _ (by simp [hp])]

theorem findUnit_cons_ne (p : String × ProcessingUnit)
    (rest : List (String × ProcessingUnit)) (uid : String) (hp : p.1 ≠ uid) :
    findUnit (p :: rest) uid = findUnit rest uid := by
  unfold findUnit
  rw [List.find?_cons_of_neg _ (by simp [hp])]

theorem findUnit_updateUnit_self (l : List (String × ProcessingUnit))
    (uid : String) (u w : ProcessingUnit) (h : findUnit l uid = some w) :
    findUnit (updateUnit l uid u) uid = some u := by
  induction l with
  | nil => exact absurd h (by simp [findUnit])
  | cons p rest ih =>
    by_cases hp : p.1 = uid
    · rw [updateUnit, if_pos hp, findUnit_cons_self (uid, u) rest uid rfl]
    · rw [updateUnit, if_neg hp, findUnit_cons_ne p _ uid hp]
      rw [findUnit_cons_ne p rest uid hp] at h
      exact ih h

theorem findUnit_updateUnit_ne (l : List (String × ProcessingUnit))
    (uid uid' : String) (u : ProcessingUnit) (h : uid' ≠ uid) :
    findUnit (updateUnit l uid u) uid' = findUnit l uid' := by
  induction l with
  | nil => rfl
  | cons p rest ih =>
    by_cases hp : p.1 = uid
    · rw [updateUnit, if_pos hp, findUnit_cons_ne (uid, u) rest uid' (Ne.symm h),
        findUnit_cons_ne p rest uid' (by rw [hp]; exact Ne.symm h)]
    · rw [updateUnit, if_neg hp]
      by_cases hp' : p.1 = uid'
      · rw [findUnit_cons_self p _ uid' hp', findUnit_cons_self p rest uid' hp']
      · rw [findUnit_cons_ne p _ uid' hp', findUnit_cons_ne p rest uid' hp']
        exact ih

theorem get_unit_setUnitAt_same (s : GameState) (x : Option String)
    (u w : ProcessingUnit) (h : s.get_unit x = some w) :
    (s.setUnitAt x u).get_unit x = some u := by
  cases x with
  | none => exact absurd h (by simp [GameState.get_unit])
  | some i =>
    by_cases hi : i = ""
    · rw [GameState.get_unit, if_pos hi] at h
      exact absurd h (by simp)
    · rw [GameState.get_unit, if_neg hi] at h
      show (s.setUnit i u).get_unit (some i) = some u
      rw [GameState.get_unit, if_neg hi]
      exact findUnit_updateUnit_self s.units i u w h

theorem get_unit_setUnitAt_ne (s : GameState) (x y : Option String)
    (u : ProcessingUnit) (h : y ≠ x) :
    (s.setUnitAt x u).get_unit y = s.get_unit y := by
  cases x with
  | none => rfl
  | some i =>
    cases y with
    | none => rfl
    | some j =>
      by_cases hj : j = ""
      · show (s.setUnit i u).get_unit (some j) = s.get_unit (some j)
        rw [GameState.get_unit, if_pos hj, GameState.get_unit, if_pos hj]
      · show (s.setUnit i u).get_unit (some j) = s.get_unit (some j)
        rw [GameState.get_unit, if_neg hj, GameState.get_unit, if_neg hj]
        exact findUnit_updateUnit_ne s.units i j u (fun he => h (by rw [he]))

theorem setUnit_eq_setUnitAt (s : GameState) (uid : String)
    (u : ProcessingUnit) : s.setUnit uid u = s.setUnitAt (some uid) u := rfl

/-! ## Projection lemmas: which fields each state operation can touch -/

theorem log_units (s : GameState) (a m : String) : (s.log a m).units = s.units := rfl

theorem log_selected (s : GameState) (a m : String) :
    (s.log a m).selected_unit_id = s.selected_unit_id := rfl

theorem log_paused (s : GameState) (a m : String) : (s.log a m).paused = s.paused := rfl

theorem log_sim_turn (s : GameState) (a m : String) :
    (s.log a m).sim_turn = s.sim_turn := rfl

theorem log_projects (s : GameState) (a m : String) :
    (s.log a m).projects = s.projects := rfl

theorem setUnit_events (s : GameState) (uid : String) (u : ProcessingUnit) :
    (s.setUnit uid u).events = s.events := rfl

theorem setUnit_sim_turn (s : GameState) (uid : String) (u : ProcessingUnit) :
    (s.setUnit uid u).sim_turn = s.sim_turn := rfl

theorem setUnitAt_events (s : GameState) (x : Option String)
    (u : ProcessingUnit) : (s.setUnitAt x u).events = s.events := by
  cases x <;> rfl

theorem setUnitAt_sim_turn (s : GameState) (x : Option String)
    (u : ProcessingUnit) : (s.setUnitAt x u).sim_turn = s.sim_turn := by
  cases x <;> rfl

theorem log_events_congr (s1 s2 : GameState) (a m : String)
    (h : s1.events = s2.events) : (s1.log a m).events = (s2.log a m).events := by
  unfold GameState.log
  rw [h]

/-! ## Resource selection lemmas -/

theorem chooseAny_pos (inv : Inventory) (k : String) (hall : allPos inv)
    (h : chooseAny inv = some k) : 0 < invGet inv k := by
  induction inv with
  | nil => exact absurd h (by simp [chooseAny])
  | cons p rest ih =>
    have hp : 0 < p.2 := hall p (by simp)
    rw [chooseAny, if_pos hp] at h
    have : p.1 = k := by injection h
    rw [invGet_cons_self p rest k this]
    exact hp

theorem choose_transfer_item_pos (source : ProcessingUnit)
    (pref : Option String) (k : String) (hall : allPos source.inventory)
    (h : choose_transfer_item source pref = some k) : 0 < source.inv_get k := by
  unfold choose_transfer_item at h
  cases pref with
  | none => exact chooseAny_pos source.inventory k hall h
  | some p =>
    dsimp only at h
    by_cases hc : p ≠ "" ∧ 0 < source.inv_get p
    · rw [if_pos hc] at h
      have : p = k := by injection h
      exact this ▸ hc.2
    · rw [if_neg hc] at h
      exact chooseAny_pos source.inventory k hall h

/-! ## The turn counter is only touched at the top of tick_turn -/

theorem do_transfer_sim_turn (s : GameState) (u : ProcessingUnit)
    (stamp : String) : (Simulation.do_transfer s u stamp).sim_turn = s.sim_turn := by
  unfold Simulation.do_transfer
  split
  · split
    · rfl
    · dsimp only
      split
      · rfl
      · split
        · rw [log_sim_turn, setUnitAt_sim_turn, setUnitAt_sim_turn]
        · rfl
  · rfl

theorem do_pile_output_sim_turn (s : GameState) (uid : String)
    (pile : ProcessingUnit) (stamp : String) :
    (Simulation.do_pile_output s uid pile stamp).sim_turn = s.sim_turn := by
  unfold Simulation.do_pile_output
  split
  · rfl
  · split
    · rfl
    · dsimp only
      split
      · rfl
      · split
        · rw [log_sim_turn, setUnitAt_sim_turn, setUnit_sim_turn]
        · rfl

theorem do_crafting_sim_turn (s : GameState) (uid : String)
    (u : ProcessingUnit) (stamp : String) :
    (Simulation.do_crafting s uid u stamp).sim_turn = s.sim_turn := by
  unfold Simulation.do_crafting
  split
  · rfl
  · split
    · rfl
    · rw [log_sim_turn, setUnit_sim_turn]

theorem dispatchAction_sim_turn (stamp : String) (s : GameState) (uid : String)
    (u : ProcessingUnit) (r : Recipe) :
    (Simulation.dispatchAction stamp s uid u r).sim_turn = s.sim_turn := by
  unfold Simulation.dispatchAction
  split
  · exact do_transfer_sim_turn s u stamp
  · split
    · exact do_pile_output_sim_turn s uid u stamp
    · split
      · exact do_crafting_sim_turn s uid u stamp
      · rfl

theorem tickUnit_sim_turn (stamp : String) (s : GameState) (uid : String) :
    (Simulation.tickUnit stamp s uid).sim_turn = s.sim_turn := by
  unfold Simulation.tickUnit
  split
  · rfl
  · split
    · rfl
    · split
      · rfl
      · dsimp only
        split
        · rw [setUnit_sim_turn]
        · rw [dispatchAction_sim_turn, setUnit_sim_turn]

theorem foldl_tickUnit_sim_turn (keys : List String) (stamp : String) :
    ∀ s : GameState,
      (keys.foldl (Simulation.tickUnit stamp) s).sim_turn = s.sim_turn := by
  induction keys with
  | nil => intro s; rfl
  | cons k ks ih =>
    intro s
    rw [List.foldl_cons, ih, tickUnit_sim_turn]

/-! ## Reduction helpers for the per-unit turn body -/

theorem tickUnit_below (s : GameState) (uid stamp : String)
    (u : ProcessingUnit) (r : Recipe) (hf : findUnit s.units uid = some u)
    (hs : u.status = "Running") (hr : u.recipe = some r)
    (h : u.turn_progress + 1 < max (1 : Int) r.duration_turns) :
    Simulation.tickUnit stamp s uid =
      s.setUnit uid { u with turn_progress := u.turn_progress + 1 } := by
  unfold Simulation.tickUnit
  rw [hf]
  dsimp only
  rw [if_neg (by simp [hs]), hr]
  dsimp only
  rw [if_pos h]

theorem tickUnit_at_threshold (s : GameState) (uid stamp : String)
    (u : ProcessingUnit) (r : Recipe) (hf : findUnit s.units uid = some u)
    (hs : u.status = "Running") (hr : u.recipe = some r)
    (h : ¬ u.turn_progress + 1 < max (1 : Int) r.duration_turns) :
    Simulation.tickUnit stamp s uid =
      Simulation.dispatchAction stamp
        (s.setUnit uid { u with turn_progress := 0 }) uid
        { u with turn_progress := 0 } r := by
  unfold Simulation.tickUnit
  rw [hf]
  dsimp only
  rw [if_neg (by simp [hs]), hr]
  dsimp only
  rw [if_neg h]

/-- C5: a tick of a paused GameState changes nothing at all, and a tick of
an unpaused GameState increments sim_turn by exactly one (so sim_turn
never decreases across ticks). -/
theorem claim_C5_pause_noop (s : GameState) (stamp : String) :
    (s.paused = true → Simulation.tick_turn s stamp = s) ∧
    (s.paused = false →
      (Simulation.tick_turn s stamp).sim_turn = s.sim_turn + 1) := by
  constructor
  · intro h
    unfold Simulation.tick_turn
    rw [if_pos h]
  · intro h
    unfold Simulation.tick_turn
    rw [if_neg (by simp [h])]
    dsimp only
    rw [foldl_tickUnit_sim_turn]

def c5Drone : ProcessingUnit :=
  { id := "drone_01", name := "Drone-01", kind := "Drone",
    inventory := [("Wood", 3)] }

def c5PausedState : GameState :=
  { units := [("drone_01", c5Drone)], paused := true, sim_turn := 7 }

def c5RunningState : GameState := { c5PausedState with paused := false }

theorem claim_C5_pause_noop_witness :
    Simulation.tick_turn c5PausedState "09:00:00" = c5PausedState ∧
    (Simulation.tick_turn c5RunningState "09:00:00").sim_turn =
      c5RunningState.sim_turn + 1 :=
  ⟨(claim_C5_pause_noop c5PausedState "09:00:00").1 (by decide),
   (claim_C5_pause_noop c5RunningState "09:00:00").2 (by decide)⟩

/-- C6: each processed turn of a Running unit with a bound recipe first
increments the turn progress of the unit; below max(1, duration_turns) the
unit does nothing further and the partial progress persists in the
registry, at the threshold the progress is reset to 0 and the action is
dispatched; and a recipe with duration_turns at most 1 (so also 0) reaches
the threshold on every turn, behaving as duration 1. -/
theorem claim_C6_duration_gating (s : GameState) (uid stamp : String)
    (u : ProcessingUnit) (r : Recipe) (hf : findUnit s.units uid = some u)
    (hs : u.status = "Running") (hr : u.recipe = some r) :
    (u.turn_progress + 1 < max (1 : Int) r.duration_turns →
      Simulation.tickUnit stamp s uid =
        s.setUnit uid { u with turn_progress := u.turn_progress + 1 }) ∧
    (¬ u.turn_progress + 1 < max (1 : Int) r.duration_turns →
      Simulation.tickUnit stamp s uid =
        Simulation.dispatchAction stamp
          (s.setUnit uid { u with turn_progress := 0 }) uid
          { u with turn_progress := 0 } r) ∧
    (r.duration_turns ≤ 1 → 0 ≤ u.turn_progress →
      ¬ u.turn_progress + 1 < max (1 : Int) r.duration_turns) := by
  refine ⟨fun h => tickUnit_below s uid stamp u r hf hs hr h,
    fun h => tickUnit_at_threshold s uid stamp u r hf hs hr h, ?_⟩
  intro h1 h2
  rw [max_eq_left h1]
  omega

def c6Recipe : Recipe :=
  { name := "Smelt Steel", duration_turns := 2,
    inputs := [("Iron Ore", 2), ("Carbon", 1)],
    outputs := [("Steel", 1)] }

def c6Smelter : ProcessingUnit :=
  { id := "smelter", name := "Red Dune Smelter", kind := "Factory",
    output_id := some "central_supply",
    inventory := [("Iron Ore", 12), ("Carbon", 4)],
    recipe := some c6Recipe }

def c6State : GameState := { units := [("smelter", c6Smelter)] }

def c6Smelter1 : ProcessingUnit := { c6Smelter with turn_progress := 1 }

def c6State1 : GameState := { units := [("smelter", c6Smelter1)] }

theorem claim_C6_duration_gating_witness :
    Simulation.tickUnit "t" c6State "smelter" =
      c6State.setUnit "smelter"
        { c6Smelter with turn_progress := c6Smelter.turn_progress + 1 } ∧
    Simulation.tickUnit "t" c6State1 "smelter" =
      Simulation.dispatchAction "t"
        (c6State1.setUnit "smelter" { c6Smelter1 with turn_progress := 0 })
        "smelter" { c6Smelter1 with turn_progress := 0 } c6Recipe :=
  ⟨(claim_C6_duration_gating c6State "smelter" "t" c6Smelter c6Recipe
      (by decide) (by decide) (by decide)).1 (by decide),
   (claim_C6_duration_gating c6State1 "smelter" "t" c6Smelter1 c6Recipe
      (by decide) (by decide) (by decide)).2.1 (by decide)⟩

/-- C10: on the turn a Running unit with a bound recipe completes its
timer, a truthy pair of links dispatches a transfer regardless of the
craft inputs and outputs of the recipe; otherwise the ResourcePile shape
with a non-None output dispatches the pile output; otherwise crafting is
attempted only when the recipe has non-empty inputs and non-empty
outputs; and otherwise no action at all is performed. -/
theorem claim_C10_dispatch_precedence (s : GameState) (uid stamp : String)
    (u : ProcessingUnit) (r : Recipe) (hf : findUnit s.units uid = some u)
    (hs : u.status = "Running") (hr : u.recipe = some r)
    (hth : ¬ u.turn_progress + 1 < max (1 : Int) r.duration_turns) :
    ((Simulation.truthyId u.input_id && Simulation.truthyId u.output_id) = true →
      Simulation.tickUnit stamp s uid =
        Simulation.do_transfer (s.setUnit uid { u with turn_progress := 0 })
          { u with turn_progress := 0 } stamp) ∧
    ((Simulation.truthyId u.input_id && Simulation.truthyId u.output_id) = false →
      (u.kind == "ResourcePile" && u.output_id.isSome) = true →
      Simulation.tickUnit stamp s uid =
        Simulation.do_pile_output
          (s.setUnit uid { u with turn_progress := 0 }) uid
          { u with turn_progress := 0 } stamp) ∧
    ((Simulation.truthyId u.input_id && Simulation.truthyId u.output_id) = false →
      (u.kind == "ResourcePile" && u.output_id.isSome) = false →
      r.inputs ≠ [] → r.outputs ≠ [] →
      Simulation.tickUnit stamp s uid =
        Simulation.do_crafting
          (s.setUnit uid { u with turn_progress := 0 }) uid
          { u with turn_progress := 0 } stamp) ∧
    ((Simulation.truthyId u.input_id && Simulation.truthyId u.output_id) = false →
      (u.kind == "ResourcePile" && u.output_id.isSome) = false →
      (r.inputs = [] ∨ r.outputs = []) →
      Simulation.tickUnit stamp s uid =
        s.setUnit uid { u with turn_progress := 0 }) := by
  have hstep := tickUnit_at_threshold s uid stamp u r hf hs hr hth
  refine ⟨?_, ?_, ?_, ?_⟩
  · intro h1
    rw [hstep]
    unfold Simulation.dispatchAction
    dsimp only
    rw [if_pos h1]
  · intro h1 h2
    rw [hstep]
    unfold Simulation.dispatchAction
    dsimp only
    rw [if_neg (by simp [h1]), if_pos h2]
  · intro h1 h2 h3 h4
    rw [hstep]
    unfold Simulation.dispatchAction
    dsimp only
    rw [if_neg (by simp [h1]), if_neg (by simp [h2]),
      if_pos (by simp [h3, h4])]
  · intro h1 h2 h3
    rw [hstep]
    unfold Simulation.dispatchAction
    dsimp only
    rw [if_neg (by simp [h1]), if_neg (by simp [h2])]
    rcases h3 with h3 | h3 <;> rw [if_neg (by simp [h3])]

def c10Recipe : Recipe :=
  { name := "Hybrid", duration_turns := 1,
    inputs := [("Iron Ore", 2)], outputs := [("Steel", 1)],
    transfer_resource := some "Wood" }

def c10Drone : ProcessingUnit :=
  { id := "d", name := "D", kind := "Drone", input_id := some "a",
    output_id := some "b", inventory := [("Iron Ore", 5)],
    recipe := some c10Recipe }

def c10State : GameState := { units := [("d", c10Drone)] }

def c10VentRecipe : Recipe :=
  { name := "Vent", duration_turns := 1, outputs := [("Steam", 1)] }

def c10Vent : ProcessingUnit :=
  { id := "v", name := "V", kind := "Factory", output_id := some "b",
    recipe := some c10VentRecipe }

def c10VentState : GameState := { units := [("v", c10Vent)] }

theorem claim_C10_dispatch_precedence_witness :
    Simulation.tickUnit "t" c10State "d" =
      Simulation.do_transfer
        (c10State.setUnit "d" { c10Drone with turn_progress := 0 })
        { c10Drone with turn_progress := 0 } "t" ∧
    Simulation.tickUnit "t" c10VentState "v" =
      c10VentState.setUnit "v" { c10Vent with turn_progress := 0 } :=
  ⟨(claim_C10_dispatch_precedence c10State "d" "t" c10Drone c10Recipe
      (by decide) (by decide) (by decide) (by decide)).1 (by decide),
   (claim_C10_dispatch_precedence c10VentState "v" "t" c10Vent c10VentRecipe
      (by decide) (by decide) (by decide) (by decide)).2.2.2 (by decide)
      (by decide) (Or.inl (by decide))⟩

/-! ## C9: the crafting log line for empty outputs -/

def c9Recipe : Recipe :=
  { name := "Burn", duration_turns := 1, inputs := [("Iron Ore", 1)],
    outputs := [] }

def c9Unit : ProcessingUnit :=
  { id := "f", name := "F", kind := "Factory",
    inventory := [("Iron Ore", 2)], recipe := some c9Recipe }

def c9State : GameState := { units := [("f", c9Unit)] }

/-- C9 counterexample: a craft action with a satisfiable recipe and an
empty outputs mapping appends a log entry whose produced-outputs summary
is the empty string, not the text (nothing) the claim names; the string
(nothing) occurs nowhere in the engine. -/
theorem claim_C9_counterexample :
    (Simulation.do_crafting c9State "f" c9Unit "t0").events =
      ["[t0] F: crafted "] ∧
    (["[t0] F: crafted "] : List String) ≠ ["[t0] F: crafted (nothing)"] :=
  ⟨by decide, by decide⟩

/-- C9 amended: a craft action with a satisfiable recipe whose outputs
mapping is empty consumes all recipe inputs and appends exactly one log
entry, but its outputs summary is the empty string rather than the text
(nothing); moreover the turn dispatcher never attempts a craft action for
a recipe with empty outputs, so no such log line is ever produced by a
turn. -/
theorem claim_C9_empty_outputs (s : GameState) (uid stamp : String)
    (u : ProcessingUnit) (r : Recipe) (hr : u.recipe = some r)
    (hout : r.outputs = [])
    (hsat : ∀ p ∈ r.inputs, p.2 ≤ u.inv_get p.1) :
    Simulation.do_crafting s uid u stamp =
      (s.setUnit uid (Simulation.applyCraftInputs u r.inputs)).log stamp
        (u.name ++ ": crafted ") ∧
    (∀ (s2 : GameState) (uid2 stamp2 : String) (u2 : ProcessingUnit),
      (Simulation.truthyId u2.input_id &&
        Simulation.truthyId u2.output_id) = false →
      (u2.kind == "ResourcePile" && u2.output_id.isSome) = false →
      Simulation.dispatchAction stamp2 s2 uid2 u2 r = s2) := by
  constructor
  · unfold Simulation.do_crafting
    rw [hr]
    dsimp only
    rw [if_neg (by push_neg; exact hsat)]
    rw [hout]
    simp [Simulation.applyCraftOutputs, Simulation.craftSummary]
  · intro s2 uid2 stamp2 u2 h1 h2
    unfold Simulation.dispatchAction
    rw [if_neg (by simp [h1]), if_neg (by simp [h2]),
      if_neg (by simp [hout])]

theorem claim_C9_empty_outputs_witness :
    Simulation.do_crafting c9State "f" c9Unit "t0" =
      (c9State.setUnit "f"
          (Simulation.applyCraftInputs c9Unit c9Recipe.inputs)).log "t0"
        (c9Unit.name ++ ": crafted ") :=
  (claim_C9_empty_outputs c9State "f" "t0" c9Unit c9Recipe (by decide)
    (by decide) (by decide)).1

/-! ## C3: craft atomicity -/

theorem allPos_applyCraftInputs (inputs : Inventory) :
    ∀ u : ProcessingUnit, allPos u.inventory →
      allPos (Simulation.applyCraftInputs u inputs).inventory := by
  induction inputs with
  | nil => intro u h; exact h
  | cons p rest ih =>
    intro u h
    exact ih _ (allPos_inv_remove u p.1 p.2 h)

theorem applyCraftInputs_inv_get (inputs : Inventory) :
    ∀ (u : ProcessingUnit) (k : String),
      (inputs.map Prod.fst).Nodup →
      (∀ p ∈ inputs, p.2 ≤ u.inv_get p.1) →
      (Simulation.applyCraftInputs u inputs).inv_get k =
        u.inv_get k - invGet inputs k := by
  induction inputs with
  | nil =>
    intro u k _ _
    show u.inv_get k = u.inv_get k - invGet [] k
    rw [invGet_nil]
    omega
  | cons p rest ih =>
    intro u k hnd hsat
    rw [List.map_cons] at hnd
    have hkeys : p.1 ∉ rest.map Prod.fst := (List.nodup_cons.mp hnd).1
    have hndr : (rest.map Prod.fst).Nodup := (List.nodup_cons.mp hnd).2
    have hp : p.2 ≤ u.inv_get p.1 := hsat p (by simp)
    have hsat' : ∀ q ∈ rest, q.2 ≤ ((u.inv_remove p.1 p.2).2).inv_get q.1 := by
      intro q hq
      have hne : q.1 ≠ p.1 := by
        intro he
        exact hkeys (he ▸ List.mem_map_of_mem Prod.fst hq)
      rw [inv_get_inv_remove_ne u p.1 q.1 p.2 hne]
      exact hsat q (List.mem_cons_of_mem p hq)
    show (Simulation.applyCraftInputs ((u.inv_remove p.1 p.2).2) rest).inv_get k = _
    rw [ih _ k hndr hsat']
    by_cases hk : k = p.1
    · subst hk
      rw [inv_get_inv_remove_self u p.1 p.2 hp,
        invGet_cons_self p rest p.1 rfl,
        invGet_eq_zero_of_not_mem rest p.1 hkeys]
      omega
    · rw [inv_get_inv_remove_ne u p.1 k p.2 hk,
        invGet_cons_ne p rest k (fun he => hk he.symm)]

theorem applyCraftOutputs_inv_get (outputs : Inventory) :
    ∀ (u : ProcessingUnit) (k : String),
      (outputs.map Prod.fst).Nodup →
      (∀ p ∈ outputs, 0 ≤ p.2) →
      allPos u.inventory →
      (Simulation.applyCraftOutputs u outputs).inv_get k =
        u.inv_get k + invGet outputs k := by
  induction outputs with
  | nil =>
    intro u k _ _ _
    show u.inv_get k = u.inv_get k + invGet [] k
    rw [invGet_nil]
    omega
  | cons p rest ih =>
    intro u k hnd hpos hall
    rw [List.map_cons] at hnd
    have hkeys : p.1 ∉ rest.map Prod.fst := (List.nodup_cons.mp hnd).1
    have hndr : (rest.map Prod.fst).Nodup := (List.nodup_cons.mp hnd).2
    have hp0 : 0 ≤ p.2 := hpos p (by simp)
    have hall1 : allPos (u.inv_add p.1 p.2).inventory := allPos_inv_add u p.1 p.2 hall
    show (Simulation.applyCraftOutputs (u.inv_add p.1 p.2) rest).inv_get k = _
    rw [ih _ k hndr (fun q hq => hpos q (List.mem_cons_of_mem p hq)) hall1]
    have hAdd : (u.inv_add p.1 p.2).inv_get p.1 = u.inv_get p.1 + p.2 := by
      by_cases hz : p.2 = 0
      · rw [hz, inv_add_zero]
        omega
      · have hge : 0 ≤ u.inv_get p.1 := invGet_nonneg u.inventory p.1 hall
        rw [inv_get_inv_add_self u p.1 p.2 hz, if_neg (by omega)]
    by_cases hk : k = p.1
    · subst hk
      rw [hAdd, invGet_cons_self p rest p.1 rfl,
        invGet_eq_zero_of_not_mem rest p.1 hkeys]
      omega
    · rw [inv_get_inv_add_ne u p.1 k p.2 hk,
        invGet_cons_ne p rest k (fun he => hk he.symm)]

/-- C3: a craft action whose recipe has some input entry exceeding the
current inventory of the unit leaves the GameState completely unchanged
and appends no log entry; otherwise the inventory of the unit changes by
exactly minus the inputs mapping plus the outputs mapping, and exactly one
log entry is appended, so partial consumption never occurs. -/
theorem claim_C3_craft_atomicity (s : GameState) (uid stamp : String)
    (u : ProcessingUnit) (r : Recipe) (hr : u.recipe = some r)
    (hnd1 : (r.inputs.map Prod.fst).Nodup)
    (hnd2 : (r.outputs.map Prod.fst).Nodup)
    (hout : ∀ p ∈ r.outputs, 0 ≤ p.2)
    (hall : allPos u.inventory) :
    ((∃ p ∈ r.inputs, u.inv_get p.1 < p.2) →
      Simulation.do_crafting s uid u stamp = s) ∧
    ((∀ p ∈ r.inputs, p.2 ≤ u.inv_get p.1) →
      Simulation.do_crafting s uid u stamp =
        (s.setUnit uid
            (Simulation.applyCraftOutputs
              (Simulation.applyCraftInputs u r.inputs) r.outputs)).log stamp
          (u.name ++ ": crafted " ++ Simulation.craftSummary r.outputs) ∧
      (∀ k, (Simulation.applyCraftOutputs
          (Simulation.applyCraftInputs u r.inputs) r.outputs).inv_get k =
        u.inv_get k - invGet r.inputs k + invGet r.outputs k)) := by
  constructor
  · intro hex
    unfold Simulation.do_crafting
    rw [hr]
    dsimp only
    rw [if_pos hex]
  · intro hsat
    constructor
    · unfold Simulation.do_crafting
      rw [hr]
      dsimp only
      rw [if_neg (by push_neg; exact hsat)]
    · intro k
      rw [applyCraftOutputs_inv_get r.outputs _ k hnd2 hout
          (allPos_applyCraftInputs r.inputs u hall),
        applyCraftInputs_inv_get r.inputs u k hnd1 hsat]

theorem claim_C3_craft_atomicity_witness :
    Simulation.do_crafting c6State "smelter" c6Smelter "t1" =
      (c6State.setUnit "smelter"
          (Simulation.applyCraftOutputs
            (Simulation.applyCraftInputs c6Smelter c6Recipe.inputs)
            c6Recipe.outputs)).log "t1"
        (c6Smelter.name ++ ": crafted " ++
          Simulation.craftSummary c6Recipe.outputs) ∧
    (Simulation.applyCraftOutputs
        (Simulation.applyCraftInputs c6Smelter c6Recipe.inputs)
        c6Recipe.outputs).inv_get "Steel" =
      c6Smelter.inv_get "Steel" - invGet c6Recipe.inputs "Steel" +
        invGet c6Recipe.outputs "Steel" :=
  ⟨((claim_C3_craft_atomicity c6State "smelter" "t1" c6Smelter c6Recipe
      (by decide) (by decide) (by decide) (by decide) (by decide)).2
      (by decide)).1,
   ((claim_C3_craft_atomicity c6State "smelter" "t1" c6Smelter c6Recipe
      (by decide) (by decide) (by decide) (by decide) (by decide)).2
      (by decide)).2 "Steel"⟩

/-! ## C2: transfer conservation -/

/-- The quantity of one resource held by the unit a link resolves to. -/
def resQty (s : GameState) (uid : Option String) (item : String) : Int :=
  match s.get_unit uid with
  | some u => u.inv_get item
  | none => 0

theorem resQty_eq (s : GameState) (uid : Option String) (item : String)
    (w : ProcessingUnit) (h : s.get_unit uid = some w) :
    resQty s uid item = w.inv_get item := by
  unfold resQty
  rw [h]

theorem get_unit_log (s : GameState) (a m : String) (x : Option String) :
    (s.log a m).get_unit x = s.get_unit x := by
  cases x <;> rfl

theorem resQty_log (s : GameState) (a m : String) (x : Option String)
    (item : String) : resQty (s.log a m) x item = resQty s x item := by
  unfold resQty
  rw [get_unit_log]

theorem inv_get_sub_one (src : ProcessingUnit) (item : String)
    (hpos : 0 < src.inv_get item) :
    (src.inv_add item (-1)).inv_get item = src.inv_get item - 1 := by
  rw [inv_get_inv_add_self src item (-1) (by omega)]
  by_cases h0 : src.inv_get item + -1 ≤ 0
  · rw [if_pos h0]
    omega
  · rw [if_neg h0]
    omega

theorem inv_get_add_one (w : ProcessingUnit) (item : String)
    (hnn : 0 ≤ w.inv_get item) :
    (w.inv_add item 1).inv_get item = w.inv_get item + 1 := by
  rw [inv_get_inv_add_self w item 1 one_ne_zero, if_neg (by omega)]

/-- C2: a transfer action (and likewise a pile output action) moves
exactly one unit of the chosen resource: when a link fails to resolve, or
the source offers no positive quantity, or the chosen resource id is the
empty string (falsy in Python, so the guard abandons it), the GameState is
returned unchanged with no log entry; when a truthy resource is chosen,
the removal from the source succeeds, the total of that resource over
source and destination is conserved, with distinct links the source
decreases by exactly 1 and the destination increases by exactly 1, and
exactly one log entry naming source, destination and resource is
appended. -/
theorem claim_C2_transfer_conservation (s : GameState) (u : ProcessingUnit)
    (uid : String) (pile : ProcessingUnit) (stamp : String) :
    ((s.get_unit u.input_id = none ∨ s.get_unit u.output_id = none) →
      Simulation.do_transfer s u stamp = s) ∧
    (∀ src dst, s.get_unit u.input_id = some src →
      s.get_unit u.output_id = some dst →
      ((choose_transfer_item src (recipePref u.recipe) = none ∨
        choose_transfer_item src (recipePref u.recipe) = some "") →
        Simulation.do_transfer s u stamp = s) ∧
      (∀ item, choose_transfer_item src (recipePref u.recipe) = some item →
        item ≠ "" → allPos src.inventory → allPos dst.inventory →
        resQty (Simulation.do_transfer s u stamp) u.input_id item +
            resQty (Simulation.do_transfer s u stamp) u.output_id item =
          resQty s u.input_id item + resQty s u.output_id item ∧
        (u.input_id ≠ u.output_id →
          resQty (Simulation.do_transfer s u stamp) u.input_id item =
              resQty s u.input_id item - 1 ∧
          resQty (Simulation.do_transfer s u stamp) u.output_id item =
              resQty s u.output_id item + 1) ∧
        (Simulation.do_transfer s u stamp).events =
          (s.log stamp (u.name ++ ": moved 1 " ++ item ++ " from " ++
            src.name ++ " -> " ++ dst.name)).events)) ∧
    (s.get_unit pile.output_id = none →
      Simulation.do_pile_output s uid pile stamp = s) ∧
    (∀ dst, s.get_unit pile.output_id = some dst →
      ((choose_transfer_item pile (recipePref pile.recipe) = none ∨
        choose_transfer_item pile (recipePref pile.recipe) = some "") →
        Simulation.do_pile_output s uid pile stamp = s) ∧
      (∀ item, choose_transfer_item pile (recipePref pile.recipe) = some item →
        item ≠ "" → s.get_unit (some uid) = some pile →
        allPos pile.inventory → allPos dst.inventory →
        resQty (Simulation.do_pile_output s uid pile stamp) (some uid) item +
            resQty (Simulation.do_pile_output s uid pile stamp)
              pile.output_id item =
          resQty s (some uid) item + resQty s pile.output_id item ∧
        (some uid ≠ pile.output_id →
          resQty (Simulation.do_pile_output s uid pile stamp) (some uid) item =
              resQty s (some uid) item - 1 ∧
          resQty (Simulation.do_pile_output s uid pile stamp)
              pile.output_id item =
            resQty s pile.output_id item + 1) ∧
        (Simulation.do_pile_output s uid pile stamp).events =
          (s.log stamp (pile.name ++ ": output 1 " ++ item ++ " -> " ++
            dst.name)).events)) := by
  refine ⟨?_, ?_, ?_, ?_⟩
  · intro h
    rcases h with h | h
    · unfold Simulation.do_transfer
      rw [h]
    · unfold Simulation.do_transfer
      rw [h]
      cases s.get_unit u.input_id <;> rfl
  · intro src dst hsrc hdst
    constructor
    · intro hch
      rcases hch with hch | hch
      · unfold Simulation.do_transfer
        rw [hsrc, hdst]
        dsimp only
        rw [hch]
      · unfold Simulation.do_transfer
        rw [hsrc, hdst]
        dsimp only
        rw [hch]
        dsimp only
        rw [if_pos rfl]
    · intro item hch hne hallS hallD
      have hpos : 0 < src.inv_get item :=
        choose_transfer_item_pos src _ item hallS hch
      have hrem : src.inv_remove item 1 = (true, src.inv_add item (-1)) :=
        inv_remove_of_le src item 1 (by omega)
      have hred : Simulation.do_transfer s u stamp =
          ((s.setUnitAt u.input_id (src.inv_add item (-1))).setUnitAt
            u.output_id
            ((((s.setUnitAt u.input_id (src.inv_add item (-1))).get_unit
                u.output_id).getD dst).inv_add item 1)).log stamp
            (u.name ++ ": moved 1 " ++ item ++ " from " ++ src.name ++
              " -> " ++ dst.name) := by
        unfold Simulation.do_transfer
        rw [hsrc, hdst]
        dsimp only
        rw [hch]
        dsimp only
        rw [if_neg hne, hrem, if_pos rfl]
      have hsub : (src.inv_add item (-1)).inv_get item =
          src.inv_get item - 1 := inv_get_sub_one src item hpos
      by_cases hio : u.input_id = u.output_id
      · rw [hio] at hsrc hred ⊢
        have hds : src = dst := by
          have h := hdst
          rw [hsrc] at h
          exact (Option.some.injEq _ _).mp h
        have hA : (s.setUnitAt u.output_id (src.inv_add item (-1))).get_unit
            u.output_id = some (src.inv_add item (-1)) :=
          get_unit_setUnitAt_same s u.output_id _ src hsrc
        rw [hA, Option.getD_some] at hred
        have hs2out : ((s.setUnitAt u.output_id
            (src.inv_add item (-1))).setUnitAt u.output_id
              ((src.inv_add item (-1)).inv_add item 1)).get_unit u.output_id =
            some ((src.inv_add item (-1)).inv_add item 1) :=
          get_unit_setUnitAt_same _ u.output_id _ _ hA
        have hw : ((src.inv_add item (-1)).inv_add item 1).inv_get item =
            src.inv_get item := by
          rw [inv_get_add_one _ item (by rw [hsub]; omega), hsub]
          omega
        refine ⟨?_, fun hne => absurd rfl hne, ?_⟩
        · rw [hred, resQty_log, resQty_eq _ _ _ _ hs2out,
            resQty_eq _ _ _ _ hdst, hw, hds]
        · rw [hred]
          exact log_events_congr _ _ _ _ (by rw [setUnitAt_events, setUnitAt_events])
      · have hA : (s.setUnitAt u.input_id (src.inv_add item (-1))).get_unit
            u.output_id = s.get_unit u.output_id :=
          get_unit_setUnitAt_ne s u.input_id u.output_id _
            (fun he => hio he.symm)
        rw [hA, hdst, Option.getD_some] at hred
        have hAin : (s.setUnitAt u.input_id (src.inv_add item (-1))).get_unit
            u.input_id = some (src.inv_add item (-1)) :=
          get_unit_setUnitAt_same s u.input_id _ src hsrc
        have hAout : (s.setUnitAt u.input_id (src.inv_add item (-1))).get_unit
            u.output_id = some dst := by rw [hA]; exact hdst
        have hs2out : ((s.setUnitAt u.input_id
            (src.inv_add item (-1))).setUnitAt u.output_id
              (dst.inv_add item 1)).get_unit u.output_id =
            some (dst.inv_add item 1) :=
          get_unit_setUnitAt_same _ u.output_id _ _ hAout
        have hs2in : ((s.setUnitAt u.input_id
            (src.inv_add item (-1))).setUnitAt u.output_id
              (dst.inv_add item 1)).get_unit u.input_id =
            some (src.inv_add item (-1)) := by
          rw [get_unit_setUnitAt_ne _ u.output_id u.input_id _ hio]
          exact hAin
        have hdadd : (dst.inv_add item 1).inv_get item =
            dst.inv_get item + 1 :=
          inv_get_add_one dst item (invGet_nonneg dst.inventory item hallD)
        refine ⟨?_, fun _ => ⟨?_, ?_⟩, ?_⟩
        · rw [hred, resQty_log, resQty_log, resQty_eq _ _ _ _ hs2in,
            resQty_eq _ _ _ _ hs2out, resQty_eq _ _ _ _ hsrc,
            resQty_eq _ _ _ _ hdst, hsub, hdadd]
          omega
        · rw [hred, resQty_log, resQty_eq _ _ _ _ hs2in,
            resQty_eq _ _ _ _ hsrc, hsub]
        · rw [hred, resQty_log, resQty_eq _ _ _ _ hs2out,
            resQty_eq _ _ _ _ hdst, hdadd]
        · rw [hred]
          exact log_events_congr _ _ _ _ (by rw [setUnitAt_events, setUnitAt_events])
  · intro h
    unfold Simulation.do_pile_output
    rw [h]
  · intro dst hdst
    constructor
    · intro hch
      rcases hch with hch | hch
      · unfold Simulation.do_pile_output
        rw [hdst, hch]
      · unfold Simulation.do_pile_output
        rw [hdst]
        dsimp only
        rw [hch]
        dsimp only
        rw [if_pos rfl]
    · intro item hch hne hpu hallP hallD
      have hpos : 0 < pile.inv_get item :=
        choose_transfer_item_pos pile _ item hallP hch
      have hrem : pile.inv_remove item 1 = (true, pile.inv_add item (-1)) :=
        inv_remove_of_le pile item 1 (by omega)
      have hred : Simulation.do_pile_output s uid pile stamp =
          ((s.setUnitAt (some uid) (pile.inv_add item (-1))).setUnitAt
            pile.output_id
            ((((s.setUnitAt (some uid) (pile.inv_add item (-1))).get_unit
                pile.output_id).getD dst).inv_add item 1)).log stamp
            (pile.name ++ ": output 1 " ++ item ++ " -> " ++ dst.name) := by
        unfold Simulation.do_pile_output
        rw [hdst]
        dsimp only
        rw [hch]
        dsimp only
        rw [if_neg hne, hrem, if_pos rfl]
        rfl
      have hsub : (pile.inv_add item (-1)).inv_get item =
          pile.inv_get item - 1 := inv_get_sub_one pile item hpos
      by_cases hio : (some uid : Option String) = pile.output_id
      · rw [hio] at hpu hred ⊢
        have hds : pile = dst := by
          have h := hdst
          rw [hpu] at h
          exact (Option.some.injEq _ _).mp h
        have hA : (s.setUnitAt pile.output_id (pile.inv_add item (-1))).get_unit
            pile.output_id = some (pile.inv_add item (-1)) :=
          get_unit_setUnitAt_same s pile.output_id _ pile hpu
        rw [hA, Option.getD_some] at hred
        have hs2out : ((s.setUnitAt pile.output_id
            (pile.inv_add item (-1))).setUnitAt pile.output_id
              ((pile.inv_add item (-1)).inv_add item 1)).get_unit
              pile.output_id =
            some ((pile.inv_add item (-1)).inv_add item 1) :=
          get_unit_setUnitAt_same _ pile.output_id _ _ hA
        have hw : ((pile.inv_add item (-1)).inv_add item 1).inv_get item =
            pile.inv_get item := by
          rw [inv_get_add_one _ item (by rw [hsub]; omega), hsub]
          omega
        refine ⟨?_, fun hne => absurd rfl hne, ?_⟩
        · rw [hred, resQty_log, resQty_eq _ _ _ _ hs2out,
            resQty_eq _ _ _ _ hdst, hw, hds]
        · rw [hred]
          exact log_events_congr _ _ _ _ (by rw [setUnitAt_events, setUnitAt_events])
      · have hA : (s.setUnitAt (some uid) (pile.inv_add item (-1))).get_unit
            pile.output_id = s.get_unit pile.output_id :=
          get_unit_setUnitAt_ne s (some uid) pile.output_id _
            (fun he => hio he.symm)
        rw [hA, hdst, Option.getD_some] at hred
        have hAin : (s.setUnitAt (some uid)
            (pile.inv_add item (-1))).get_unit (some uid) =
            some (pile.inv_add item (-1)) :=
          get_unit_setUnitAt_same s (some uid) _ pile hpu
        have hAout : (s.setUnitAt (some uid)
            (pile.inv_add item (-1))).get_unit pile.output_id = some dst := by
          rw [hA]
          exact hdst
        have hs2out : ((s.setUnitAt (some uid)
            (pile.inv_add item (-1))).setUnitAt pile.output_id
              (dst.inv_add item 1)).get_unit pile.output_id =
            some (dst.inv_add item 1) :=
          get_unit_setUnitAt_same _ pile.output_id _ _ hAout
        have hs2in : ((s.setUnitAt (some uid)
            (pile.inv_add item (-1))).setUnitAt pile.output_id
              (dst.inv_add item 1)).get_unit (some uid) =
            some (pile.inv_add item (-1)) := by
          rw [get_unit_setUnitAt_ne _ pile.output_id (some uid) _ hio]
          exact hAin
        have hdadd : (dst.inv_add item 1).inv_get item =
            dst.inv_get item + 1 :=
          inv_get_add_one dst item (invGet_nonneg dst.inventory item hallD)
        refine ⟨?_, fun _ => ⟨?_, ?_⟩, ?_⟩
        · rw [hred, resQty_log, resQty_log, resQty_eq _ _ _ _ hs2in,
            resQty_eq _ _ _ _ hs2out, resQty_eq _ _ _ _ hpu,
            resQty_eq _ _ _ _ hdst, hsub, hdadd]
          omega
        · rw [hred, resQty_log, resQty_eq _ _ _ _ hs2in,
            resQty_eq _ _ _ _ hpu, hsub]
        · rw [hred, resQty_log, resQty_eq _ _ _ _ hs2out,
            resQty_eq _ _ _ _ hdst, hdadd]
        · rw [hred]
          exact log_events_congr _ _ _ _ (by rw [setUnitAt_events, setUnitAt_events])

def c2PileRecipe : Recipe :=
  { name := "Pile Transfer", duration_turns := 1,
    transfer_resource := some "Wood" }

def c2Pile : ProcessingUnit :=
  { id := "a", name := "A", kind := "ResourcePile", output_id := some "b",
    inventory := [("Wood", 20)], recipe := some c2PileRecipe }

def c2B : ProcessingUnit :=
  { id := "b", name := "B", kind := "Stockpile", inventory := [("Wood", 4)] }

def c2DroneRecipe : Recipe := { name := "Drone Transfer", duration_turns := 1 }

def c2Drone : ProcessingUnit :=
  { id := "d", name := "D", kind := "Drone", input_id := some "a",
    output_id := some "b", recipe := some c2DroneRecipe }

def c2State : GameState :=
  { units := [("a", c2Pile), ("b", c2B), ("d", c2Drone)] }

theorem claim_C2_transfer_conservation_witness :
    (resQty (Simulation.do_transfer c2State c2Drone "t") c2Drone.input_id "Wood" +
        resQty (Simulation.do_transfer c2State c2Drone "t") c2Drone.output_id "Wood" =
      resQty c2State c2Drone.input_id "Wood" +
        resQty c2State c2Drone.output_id "Wood") ∧
    resQty (Simulation.do_transfer c2State c2Drone "t") c2Drone.input_id "Wood" =
      resQty c2State c2Drone.input_id "Wood" - 1 ∧
    resQty (Simulation.do_transfer c2State c2Drone "t") c2Drone.output_id "Wood" =
      resQty c2State c2Drone.output_id "Wood" + 1 ∧
    (Simulation.do_transfer c2State c2Drone "t").events =
      (c2State.log "t" (c2Drone.name ++ ": moved 1 " ++ "Wood" ++ " from " ++
        c2Pile.name ++ " -> " ++ c2B.name)).events ∧
    (resQty (Simulation.do_pile_output c2State "a" c2Pile "t") (some "a") "Wood" +
        resQty (Simulation.do_pile_output c2State "a" c2Pile "t")
          c2Pile.output_id "Wood" =
      resQty c2State (some "a") "Wood" +
        resQty c2State c2Pile.output_id "Wood") ∧
    (Simulation.do_pile_output c2State "a" c2Pile "t").events =
      (c2State.log "t" (c2Pile.name ++ ": output 1 " ++ "Wood" ++ " -> " ++
        c2B.name)).events := by
  have h := claim_C2_transfer_conservation c2State c2Drone "a" c2Pile "t"
  have ht := (h.2.1 c2Pile c2B (by decide) (by decide)).2 "Wood" (by decide)
    (by decide) (by decide) (by decide)
  have hp := (h.2.2.2 c2B (by decide)).2 "Wood" (by decide) (by decide)
    (by decide) (by decide) (by decide)
  exact ⟨ht.1, (ht.2.1 (by decide)).1, (ht.2.1 (by decide)).2, ht.2.2,
    hp.1, hp.2.2⟩

/-! ## C4: determinism

The engine reads the wall clock only inside GameState.log, where
time.strftime supplies the stamp of each event line.  The CoreState
projection below is everything except the event log; the lemmas show that
it evolves independently of the stamps and of the existing log, while the
counterexample shows the event log itself does depend on the clock. -/

structure CoreState where
  units : List (String × ProcessingUnit)
  selected_unit_id : Option String
  paused : Bool
  sim_turn : Int
  projects : List Project
  selected_pm_item : Option String
  deriving DecidableEq

/-- Everything in a GameState except the event log. -/
def GameState.core (s : GameState) : CoreState :=
  ⟨s.units, s.selected_unit_id, s.paused, s.sim_turn, s.projects,
   s.selected_pm_item⟩

theorem core_events (s : GameState) (e : List String) :
    ({ s with events := e } : GameState).core = s.core := rfl

theorem get_unit_events (s : GameState) (e : List String) (x : Option String) :
    ({ s with events := e } : GameState).get_unit x = s.get_unit x := by
  cases x <;> rfl

theorem setUnit_events_comm (s : GameState) (e : List String) (uid : String)
    (v : ProcessingUnit) :
    ({ s with events := e } : GameState).setUnit uid v =
      { s.setUnit uid v with events := e } := rfl

theorem setUnitAt_events_comm (s : GameState) (e : List String)
    (x : Option String) (v : ProcessingUnit) :
    ({ s with events := e } : GameState).setUnitAt x v =
      { s.setUnitAt x v with events := e } := by
  cases x <;> rfl

theorem log_core (s : GameState) (a m : String) :
    (s.log a m).core = s.core := rfl

theorem do_transfer_core (s : GameState) (e : List String)
    (u : ProcessingUnit) (a b : String) :
    (Simulation.do_transfer { s with events := e } u a).core =
      (Simulation.do_transfer s u b).core := by
  unfold Simulation.do_transfer
  simp only [get_unit_events]
  cases h1 : s.get_unit u.input_id <;> cases h2 : s.get_unit u.output_id <;>
    dsimp only
  · exact core_events s e
  · exact core_events s e
  · exact core_events s e
  · rename_i src dst
    cases h3 : choose_transfer_item src (recipePref u.recipe) <;> dsimp only
    · exact core_events s e
    · rename_i item
      by_cases hemp : item = ""
      · rw [if_pos hemp, if_pos hemp]
        exact core_events s e
      · rw [if_neg hemp, if_neg hemp]
        cases h4 : (src.inv_remove item 1).1
        · rw [if_neg (by simp), if_neg (by simp)]
          exact core_events s e
        · rw [if_pos rfl, if_pos rfl]
          simp only [setUnitAt_events_comm, get_unit_events, log_core,
            core_events]

theorem do_pile_output_core (s : GameState) (e : List String) (uid : String)
    (pile : ProcessingUnit) (a b : String) :
    (Simulation.do_pile_output { s with events := e } uid pile a).core =
      (Simulation.do_pile_output s uid pile b).core := by
  unfold Simulation.do_pile_output
  rw [get_unit_events]
  cases h1 : s.get_unit pile.output_id <;> dsimp only
  · exact core_events s e
  · rename_i dst
    cases h2 : choose_transfer_item pile (recipePref pile.recipe) <;> dsimp only
    · exact core_events s e
    · rename_i item
      by_cases hemp : item = ""
      · rw [if_pos hemp, if_pos hemp]
        exact core_events s e
      · rw [if_neg hemp, if_neg hemp]
        cases h3 : (pile.inv_remove item 1).1
        · rw [if_neg (by simp), if_neg (by simp)]
          exact core_events s e
        · rw [if_pos rfl, if_pos rfl]
          simp only [setUnit_events_comm, setUnitAt_events_comm, get_unit_events,
            log_core, core_events]

theorem do_crafting_core (s : GameState) (e : List String) (uid : String)
    (u : ProcessingUnit) (a b : String) :
    (Simulation.do_crafting { s with events := e } uid u a).core =
      (Simulation.do_crafting s uid u b).core := by
  unfold Simulation.do_crafting
  cases hr : u.recipe <;> dsimp only
  · exact core_events s e
  · rename_i r
    by_cases hc : ∃ p ∈ r.inputs, u.inv_get p.1 < p.2
    · rw [if_pos hc, if_pos hc]
      exact core_events s e
    · rw [if_neg hc, if_neg hc]
      simp only [setUnit_events_comm, log_core, core_events]

theorem dispatchAction_core (s : GameState) (e : List String) (uid : String)
    (u : ProcessingUnit) (r : Recipe) (a b : String) :
    (Simulation.dispatchAction a { s with events := e } uid u r).core =
      (Simulation.dispatchAction b s uid u r).core := by
  unfold Simulation.dispatchAction
  by_cases h1 : (Simulation.truthyId u.input_id &&
      Simulation.truthyId u.output_id) = true
  · rw [if_pos h1, if_pos h1]
    exact do_transfer_core s e u a b
  · rw [if_neg h1, if_neg h1]
    by_cases h2 : (u.kind == "ResourcePile" && u.output_id.isSome) = true
    · rw [if_pos h2, if_pos h2]
      exact do_pile_output_core s e uid u a b
    · rw [if_neg h2, if_neg h2]
      by_cases h3 : (!r.inputs.isEmpty && !r.outputs.isEmpty) = true
      · rw [if_pos h3, if_pos h3]
        exact do_crafting_core s e uid u a b
      · rw [if_neg h3, if_neg h3]
        exact core_events s e

theorem tickUnit_core (s : GameState) (e : List String) (uid : String)
    (a b : String) :
    (Simulation.tickUnit a { s with events := e } uid).core =
      (Simulation.tickUnit b s uid).core := by
  unfold Simulation.tickUnit
  rw [show ({ s with events := e } : GameState).units = s.units from rfl]
  cases hf : findUnit s.units uid <;> dsimp only
  · exact core_events s e
  · rename_i u
    by_cases hs : u.status ≠ "Running"
    · rw [if_pos hs, if_pos hs]
      exact core_events s e
    · rw [if_neg hs, if_neg hs]
      cases hr : u.recipe <;> dsimp only
      · exact core_events s e
      · rename_i r
        by_cases hp : u.turn_progress + 1 < max (1 : Int) r.duration_turns
        · rw [if_pos hp, if_pos hp]
          rw [setUnit_events_comm]
          exact core_events _ e
        · rw [if_neg hp, if_neg hp]
          rw [setUnit_events_comm]
          exact dispatchAction_core _ e uid _ r a b

theorem core_ext (s1 s2 : GameState) (h : s1.core = s2.core) :
    s1 = { s2 with events := s1.events } := by
  cases s1
  cases s2
  simp only [GameState.core, CoreState.mk.injEq] at h
  obtain ⟨h1, h2, h3, h4, h5, h6⟩ := h
  simp [h1, h2, h3, h4, h5, h6]

theorem tickUnit_core_two (a b : String) (s1 s2 : GameState) (k : String)
    (h : s1.core = s2.core) :
    (Simulation.tickUnit a s1 k).core = (Simulation.tickUnit b s2 k).core := by
  rw [core_ext s1 s2 h]
  exact tickUnit_core s2 s1.events k a b

theorem foldl_tickUnit_core (keys : List String) (a b : String) :
    ∀ s1 s2 : GameState, s1.core = s2.core →
      (keys.foldl (Simulation.tickUnit a) s1).core =
        (keys.foldl (Simulation.tickUnit b) s2).core := by
  induction keys with
  | nil => intro s1 s2 h; exact h
  | cons k ks ih =>
    intro s1 s2 h
    rw [List.foldl_cons, List.foldl_cons]
    exact ih _ _ (tickUnit_core_two a b s1 s2 k h)

theorem core_sim_bump (s : GameState) (t : Int) :
    ({ s with sim_turn := t } : GameState).core =
      { s.core with sim_turn := t } := rfl

theorem tick_turn_core_two (a b : String) (s1 s2 : GameState)
    (h : s1.core = s2.core) :
    (Simulation.tick_turn s1 a).core = (Simulation.tick_turn s2 b).core := by
  unfold Simulation.tick_turn
  have hp : s1.paused = s2.paused := congrArg CoreState.paused h
  have hu : s1.units = s2.units := congrArg CoreState.units h
  have ht : s1.sim_turn = s2.sim_turn := congrArg CoreState.sim_turn h
  by_cases hpp : s2.paused = true
  · rw [if_pos (by rw [hp]; exact hpp), if_pos hpp]
    exact h
  · rw [if_neg (by rw [hp]; exact hpp), if_neg hpp]
    dsimp only
    have hc := h
    simp only [GameState.core, CoreState.mk.injEq] at hc
    obtain ⟨e1, e2, e3, e4, e5, e6⟩ := hc
    have hkeys : Simulation.sortKeys
        ({ s1 with sim_turn := s1.sim_turn + 1 } : GameState).units =
        Simulation.sortKeys
          ({ s2 with sim_turn := s2.sim_turn + 1 } : GameState).units := by
      dsimp only
      rw [e1]
    rw [hkeys]
    refine foldl_tickUnit_core _ a b _ _ ?_
    simp only [GameState.core]
    rw [e1, e2, e3, e4, e5, e6]

theorem runTurns_core (st1 : List String) :
    ∀ st2 : List String, st1.length = st2.length →
    ∀ s1 s2 : GameState, s1.core = s2.core →
      (Simulation.runTurns s1 st1).core =
        (Simulation.runTurns s2 st2).core := by
  induction st1 with
  | nil =>
    intro st2 hl s1 s2 h
    cases st2 with
    | nil => exact h
    | cons b bs => simp at hl
  | cons a as ih =>
    intro st2 hl s1 s2 h
    cases st2 with
    | nil => simp at hl
    | cons b bs =>
      show (as.foldl Simulation.tick_turn (Simulation.tick_turn s1 a)).core =
        (bs.foldl Simulation.tick_turn (Simulation.tick_turn s2 b)).core
      exact ih bs (by simpa using hl) _ _ (tick_turn_core_two a b s1 s2 h)

/-! ## Sortedness of the turn-loop key order -/

theorem charsLe_total (as : List Char) :
    ∀ bs, Simulation.charsLe as bs = true ∨ Simulation.charsLe bs as = true := by
  induction as with
  | nil => intro bs; left; rfl
  | cons a as ih =>
    intro bs
    cases bs with
    | nil => right; rfl
    | cons b bs' =>
      by_cases hab : a = b
      · subst hab
        rcases ih bs' with h | h
        · left; simpa [Simulation.charsLe] using h
        · right; simpa [Simulation.charsLe] using h
      · rcases lt_trichotomy a b with hlt | heq | hgt
        · left
          simp [Simulation.charsLe, hab, hlt]
        · exact absurd heq hab
        · right
          simp [Simulation.charsLe, Ne.symm hab, hgt]

theorem charsLe_trans (as : List Char) :
    ∀ bs cs, Simulation.charsLe as bs = true →
      Simulation.charsLe bs cs = true → Simulation.charsLe as cs = true := by
  induction as with
  | nil => intro bs cs _ _; rfl
  | cons a as ih =>
    intro bs cs h1 h2
    cases bs with
    | nil => simp [Simulation.charsLe] at h1
    | cons b bs' =>
      cases cs with
      | nil => simp [Simulation.charsLe] at h2
      | cons c cs' =>
        by_cases hab : a = b <;> by_cases hbc : b = c
        · subst hab
          subst hbc
          simp only [Simulation.charsLe, if_pos rfl] at h1 h2 ⊢
          exact ih _ _ h1 h2
        · subst hab
          simp [Simulation.charsLe, hbc] at h2
          simp [Simulation.charsLe, hbc, h2]
        · subst hbc
          simp [Simulation.charsLe, hab] at h1
          simp [Simulation.charsLe, hab, h1]
        · simp [Simulation.charsLe, hab] at h1
          simp [Simulation.charsLe, hbc] at h2
          have hac : a < c := lt_trans h1 h2
          simp [Simulation.charsLe, ne_of_lt hac, hac]

instance : IsTrans String Simulation.strLe :=
  ⟨fun a b c h1 h2 => charsLe_trans a.data b.data c.data h1 h2⟩

instance : IsTotal String Simulation.strLe :=
  ⟨fun a b => charsLe_total a.data b.data⟩

/-- C4 amended: from identical initial GameStates, runs of equally many
tick_turn calls yield bit-identical units, turn counters, pause flags and
selections regardless of the wall-clock stamps; the whole states including
the event logs are bit-identical whenever the wall-clock readings also
coincide; and the turn loop visits the registry keys in ascending
code-point order, a permutation of the registry keys. -/
theorem claim_C4_determinism (s : GameState) (st1 st2 : List String)
    (h : st1.length = st2.length) :
    (Simulation.runTurns s st1).core = (Simulation.runTurns s st2).core ∧
    (st1 = st2 →
      Simulation.runTurns s st1 = Simulation.runTurns s st2) ∧
    List.Sorted Simulation.strLe (Simulation.sortKeys s.units) ∧
    (Simulation.sortKeys s.units).Perm (s.units.map Prod.fst) :=
  ⟨runTurns_core st1 st2 h s s rfl, fun he => by rw [he],
   List.sorted_insertionSort _ _, List.perm_insertionSort _ _⟩

/-- C4 counterexample: the event log is stamped with the wall-clock
reading of time.strftime, so two runs from the identical initial GameState
with the identical single tick_turn call but different clock readings
produce different event logs; resulting states are not bit-identical. -/
theorem claim_C4_counterexample :
    (Simulation.tick_turn c2State "00:00:00").events ≠
      (Simulation.tick_turn c2State "00:00:01").events := by
  decide

theorem claim_C4_determinism_witness :
    (Simulation.runTurns c2State ["08:00:00"]).core =
      (Simulation.runTurns c2State ["09:30:00"]).core ∧
    Simulation.runTurns c2State ["08:00:00"] =
      Simulation.runTurns c2State ["08:00:00"] ∧
    List.Sorted Simulation.strLe (Simulation.sortKeys c2State.units) ∧
    (Simulation.sortKeys c2State.units).Perm (c2State.units.map Prod.fst) :=
  ⟨(claim_C4_determinism c2State ["08:00:00"] ["09:30:00"] rfl).1,
   (claim_C4_determinism c2State ["08:00:00"] ["08:00:00"] rfl).2.1 rfl,
   (claim_C4_determinism c2State ["08:00:00"] ["09:30:00"] rfl).2.2.1,
   (claim_C4_determinism c2State ["08:00:00"] ["09:30:00"] rfl).2.2.2⟩

/-! ## Project completion derivation and task toggling -/

/-- Modelled from the spec: the derived completion of one Goal.  The
function GameState.recompute_project_status is called by
src/project_manager.py and src/tasks_loader.py but its definition (and
the Project, Goal, Task dataclasses) is not among the provided source
files; per the spec a Goal is complete iff the set of its required tasks
is empty or every task in it is completed, which is exactly the List.all
of the required filter. -/
def recomputeGoal (g : Goal) : Goal :=
  { g with completed :=
      (g.tasks.filter (fun t => t.required)).all (fun t => t.completed) }

/-- Modelled from the spec: a Project applies the same rule over its
required goals, using their freshly derived completion. -/
def recomputeProject (p : Project) : Project :=
  let gs := p.goals.map recomputeGoal
  { p with
    goals := gs
    completed := (gs.filter (fun g => g.required)).all (fun g => g.completed) }

/-- Modelled from the spec: GameState.recompute_project_status, a pure
bottom-up pass over the whole project list. -/
def GameState.recompute_project_status (s : GameState) : GameState :=
  { s with projects := s.projects.map recomputeProject }

/-- The innermost loop of ProjectManager.find_task (src/project_manager.py
lines 18-20). -/
def findTaskTasks : List Task → String → Option Task
  | [], _ => none
  | t :: ts, tid => if t.id = tid then some t else findTaskTasks ts tid

/-- The goal loop of ProjectManager.find_task (src/project_manager.py
lines 15-20); a goal whose id does not match is skipped, and the scan
continues past a matching goal whose tasks do not contain the id. -/
def findTaskGoals : List Goal → String → String → Option Task
  | [], _, _ => none
  | g :: gs, gid, tid =>
    if g.id = gid then
      match findTaskTasks g.tasks tid with
      | some t => some t
      | none => findTaskGoals gs gid tid
    else findTaskGoals gs gid tid

/-- The project loop of ProjectManager.find_task (src/project_manager.py
lines 12-21). -/
def findTaskProjects : List Project → String → String → String → Option Task
  | [], _, _, _ => none
  | p :: ps, pid, gid, tid =>
    if p.id = pid then
      match findTaskGoals p.goals gid tid with
      | some t => some t
      | none => findTaskProjects ps pid gid tid
    else findTaskProjects ps pid gid tid

/-- ProjectManager.find_task (src/project_manager.py lines 11-21). -/
def ProjectManager.find_task (s : GameState) (pid gid tid : String) :
    Option Task :=
  findTaskProjects s.projects pid gid tid

/-- In-place flip of the first task with the given id, in the scan order
of find_task; this is the effect of the Python assignment
t.completed = not t.completed through the object reference. -/
def toggleTasksList : List Task → String → Option (List Task)
  | [], _ => none
  | t :: ts, tid =>
    if t.id = tid then some ({ t with completed := !t.completed } :: ts)
    else
      match toggleTasksList ts tid with
      | some ts' => some (t :: ts')
      | none => none

def toggleGoalsList : List Goal → String → String → Option (List Goal)
  | [], _, _ => none
  | g :: gs, gid, tid =>
    if g.id = gid then
      match toggleTasksList g.tasks tid with
      | some ts => some ({ g with tasks := ts } :: gs)
      | none =>
        match toggleGoalsList gs gid tid with
        | some gs' => some (g :: gs')
        | none => none
    else
      match toggleGoalsList gs gid tid with
      | some gs' => some (g :: gs')
      | none => none

def toggleProjectsList :
    List Project → String → String → String → Option (List Project)
  | [], _, _, _ => none
  | p :: ps, pid, gid, tid =>
    if p.id = pid then
      match toggleGoalsList p.goals gid tid with
      | some gs => some ({ p with goals := gs } :: ps)
      | none =>
        match toggleProjectsList ps pid gid tid with
        | some ps' => some (p :: ps')
        | none => none
    else
      match toggleProjectsList ps pid gid tid with
      | some ps' => some (p :: ps')
      | none => none

/-- ProjectManager.toggle_task (src/project_manager.py lines 23-30).  The
Python code flips the completed flag of the Task object returned by
find_task through its reference; here the flip of exactly that occurrence
is performed by toggleProjectsList, whose coherence with find_task is
proved below.  The log line reads the flag after the flip. -/
def ProjectManager.toggle_task (s : GameState) (pid gid tid stamp : String) :
    GameState :=
  match ProjectManager.find_task s pid gid tid with
  | none =>
    s.log stamp ("Task not found: " ++ pid ++ "/" ++ gid ++ "/" ++ tid)
  | some t =>
    let s1 : GameState := { s with projects :=
      (toggleProjectsList s.projects pid gid tid).getD s.projects }
    let s2 := s1.recompute_project_status
    s2.log stamp
      ((if !t.completed then "Task completed: " else "Task reopened: ") ++
        t.name)

/-- All tasks of a project list, flattened in scan order. -/
def allTasks (ps : List Project) : List Task :=
  ps.flatMap (fun p => p.goals.flatMap (fun g => g.tasks))

/-! ## C7: the derived completion rule -/

theorem filter_set_not {α : Type} (p : α → Bool) (l : List α) :
    ∀ (i : Nat) (x : α), p x = false →
      (∀ y, l[i]? = some y → p y = false) →
      (l.set i x).filter p = l.filter p := by
  induction l with
  | nil => intro i x _ _; rfl
  | cons a as ih =>
    intro i x hx hi
    cases i with
    | zero =>
      have ha : p a = false := hi a List.getElem?_cons_zero
      rw [List.set_cons_zero, List.filter_cons, List.filter_cons,
        if_neg (by simp [hx]), if_neg (by simp [ha])]
    | succ n =>
      rw [List.set_cons_succ, List.filter_cons, List.filter_cons,
        ih n x hx (fun y hy => hi y (by rw [List.getElem?_cons_succ]; exact hy))]

theorem filter_all_set {α : Type} (pr pc : α → Bool) (l : List α) :
    ∀ (i : Nat) (y : α),
      (∀ z, l[i]? = some z → pr y = pr z ∧ pc y = pc z) →
      ((l.set i y).filter pr).all pc = (l.filter pr).all pc := by
  induction l with
  | nil => intro i y _; rfl
  | cons a as ih =>
    intro i y h
    cases i with
    | zero =>
      obtain ⟨h1, h2⟩ := h a List.getElem?_cons_zero
      rw [List.set_cons_zero, List.filter_cons, List.filter_cons]
      by_cases hpa : pr a = true
      · rw [if_pos hpa, if_pos (by rw [h1]; exact hpa), List.all_cons,
          List.all_cons, h2]
      · rw [if_neg hpa, if_neg (by rw [h1]; exact hpa)]
    | succ n =>
      rw [List.set_cons_succ, List.filter_cons, List.filter_cons]
      have ih' := ih n y
        (fun z hz => h z (by rw [List.getElem?_cons_succ]; exact hz))
      by_cases hpa : pr a = true
      · rw [if_pos hpa, if_pos hpa, List.all_cons, List.all_cons, ih']
      · rw [if_neg hpa, if_neg hpa, ih']

theorem map_set {α β : Type} (f : α → β) (l : List α) :
    ∀ (i : Nat) (x : α), (l.set i x).map f = (l.map f).set i (f x) := by
  induction l with
  | nil => intro i x; rfl
  | cons a as ih =>
    intro i x
    cases i with
    | zero =>
      rw [List.set_cons_zero, List.map_cons, List.map_cons,
        List.set_cons_zero]
    | succ n =>
      rw [List.set_cons_succ, List.map_cons, List.map_cons,
        List.set_cons_succ, ih]

/-- The in-place toggle of one task flag. -/
def flipTask (t : Task) : Task := { t with completed := !t.completed }

/-- A goal with the task at one index replaced by its toggled version. -/
def flipTaskIn (g : Goal) (i : Nat) (t : Task) : Goal :=
  { g with tasks := g.tasks.set i (flipTask t) }

/-- A project with the goal at one index replaced. -/
def setGoalIn (p : Project) (j : Nat) (g : Goal) : Project :=
  { p with goals := p.goals.set j g }

theorem recomputeGoal_flip_optional (g : Goal) (i : Nat) (t : Task)
    (hi : g.tasks[i]? = some t) (hreq : t.required = false) :
    (recomputeGoal (flipTaskIn g i t)).completed =
      (recomputeGoal g).completed := by
  unfold flipTaskIn recomputeGoal
  dsimp only
  rw [filter_set_not (fun t => t.required) g.tasks i (flipTask t) hreq
    (fun y hy => by rw [hi] at hy; injection hy with h; rw [← h]; exact hreq)]

theorem recomputeProject_flip_optional (p : Project) (j : Nat) (g : Goal)
    (i : Nat) (t : Task) (hj : p.goals[j]? = some g)
    (hi : g.tasks[i]? = some t) (hreq : t.required = false) :
    (recomputeProject (setGoalIn p j (flipTaskIn g i t))).completed =
      (recomputeProject p).completed := by
  unfold setGoalIn recomputeProject
  dsimp only
  rw [map_set recomputeGoal p.goals j _]
  have harg : ∀ z, (p.goals.map recomputeGoal)[j]? = some z →
      (recomputeGoal (flipTaskIn g i t)).required = z.required ∧
      (recomputeGoal (flipTaskIn g i t)).completed = z.completed := by
    intro z hz
    rw [List.getElem?_map, hj] at hz
    injection hz with hz'
    rw [← hz']
    exact ⟨rfl, recomputeGoal_flip_optional g i t hi hreq⟩
  rw [filter_all_set (fun g => g.required) (fun g => g.completed)
    (p.goals.map recomputeGoal) j _ harg]

/-- C7: after a recompute every Goal carries completed equal to the
required-task rule (vacuously true when no required task exists), every
Project carries completed equal to the same rule over its freshly derived
goals, and flipping the completed flag of an optional task never changes
the derived completed value of its Goal or its Project. -/
theorem claim_C7_derived_completion (s : GameState) :
    (∀ p ∈ s.recompute_project_status.projects, ∀ g ∈ p.goals,
      g.completed =
        (g.tasks.filter (fun t => t.required)).all (fun t => t.completed)) ∧
    (∀ p ∈ s.recompute_project_status.projects,
      p.completed =
        (p.goals.filter (fun g => g.required)).all (fun g => g.completed)) ∧
    (∀ (g : Goal) (i : Nat) (t : Task), g.tasks[i]? = some t →
      t.required = false →
      (recomputeGoal (flipTaskIn g i t)).completed =
        (recomputeGoal g).completed) ∧
    (∀ (p : Project) (j : Nat) (g : Goal) (i : Nat) (t : Task),
      p.goals[j]? = some g → g.tasks[i]? = some t → t.required = false →
      (recomputeProject (setGoalIn p j (flipTaskIn g i t))).completed =
        (recomputeProject p).completed) := by
  refine ⟨?_, ?_,
    fun g i t hi hreq => recomputeGoal_flip_optional g i t hi hreq,
    fun p j g i t hj hi hreq =>
      recomputeProject_flip_optional p j g i t hj hi hreq⟩
  · intro p' hp' g hg
    obtain ⟨p0, _, rfl⟩ := List.mem_map.mp hp'
    obtain ⟨g0, _, rfl⟩ := List.mem_map.mp hg
    rfl
  · intro p' hp'
    obtain ⟨p0, _, rfl⟩ := List.mem_map.mp hp'
    rfl

def c7TaskReq : Task :=
  { id := "t1", name := "Dig foundations", required := true, completed := true }

def c7TaskOpt : Task :=
  { id := "t2", name := "Polish sign", required := false, completed := false }

def c7Goal : Goal :=
  { id := "g1", name := "Base camp", required := true,
    tasks := [c7TaskReq, c7TaskOpt] }

def c7Project : Project :=
  { id := "p1", name := "Settle", required := true, goals := [c7Goal] }

def c7State : GameState := { projects := [c7Project] }

theorem claim_C7_derived_completion_witness :
    (recomputeGoal c7Goal).completed =
      ((recomputeGoal c7Goal).tasks.filter (fun t => t.required)).all
        (fun t => t.completed) ∧
    (recomputeProject c7Project).completed =
      ((recomputeProject c7Project).goals.filter (fun g => g.required)).all
        (fun g => g.completed) ∧
    (recomputeGoal (flipTaskIn c7Goal 1 c7TaskOpt)).completed =
      (recomputeGoal c7Goal).completed ∧
    (recomputeProject (setGoalIn c7Project 0
        (flipTaskIn c7Goal 1 c7TaskOpt))).completed =
      (recomputeProject c7Project).completed :=
  ⟨(claim_C7_derived_completion c7State).1 (recomputeProject c7Project)
      (by decide) (recomputeGoal c7Goal) (by decide),
   (claim_C7_derived_completion c7State).2.1 (recomputeProject c7Project)
      (by decide),
   (claim_C7_derived_completion c7State).2.2.1 c7Goal 1 c7TaskOpt (by decide)
      (by decide),
   (claim_C7_derived_completion c7State).2.2.2 c7Project 0 c7Goal 1 c7TaskOpt
      (by decide) (by decide) (by decide)⟩

/-! ## C8: task toggling -/

theorem goalsTasks_cons (g : Goal) (gs : List Goal) :
    (g :: gs).flatMap (fun g => g.tasks) =
      g.tasks ++ gs.flatMap (fun g => g.tasks) :=
  List.flatMap_cons g gs _

theorem allTasks_cons (p : Project) (ps : List Project) :
    allTasks (p :: ps) =
      p.goals.flatMap (fun g => g.tasks) ++ allTasks ps :=
  List.flatMap_cons p ps _

theorem toggleTasksList_none (l : List Task) (tid : String)
    (h : findTaskTasks l tid = none) : toggleTasksList l tid = none := by
  induction l with
  | nil => rfl
  | cons t ts ih =>
    by_cases ht : t.id = tid
    · rw [findTaskTasks, if_pos ht] at h
      exact absurd h (by simp)
    · rw [findTaskTasks, if_neg ht] at h
      rw [toggleTasksList, if_neg ht, ih h]

theorem toggleTasksList_some (l : List Task) (tid : String) (t : Task)
    (h : findTaskTasks l tid = some t) :
    t.id = tid ∧ ∃ l1 l2, l = l1 ++ t :: l2 ∧
      toggleTasksList l tid = some (l1 ++ flipTask t :: l2) := by
  induction l with
  | nil => exact absurd h (by simp [findTaskTasks])
  | cons t0 ts ih =>
    by_cases ht : t0.id = tid
    · rw [findTaskTasks, if_pos ht] at h
      injection h with h
      subst h
      exact ⟨ht, [], ts, rfl, by rw [toggleTasksList, if_pos ht]; rfl⟩
    · rw [findTaskTasks, if_neg ht] at h
      obtain ⟨hid, l1, l2, heq, htog⟩ := ih h
      refine ⟨hid, t0 :: l1, l2, by rw [heq]; rfl, ?_⟩
      rw [toggleTasksList, if_neg ht, htog]
      rfl

theorem toggleGoalsList_none (gs : List Goal) (gid tid : String)
    (h : findTaskGoals gs gid tid = none) :
    toggleGoalsList gs gid tid = none := by
  induction gs with
  | nil => rfl
  | cons g gs ih =>
    by_cases hg : g.id = gid
    · rw [findTaskGoals, if_pos hg] at h
      cases hft : findTaskTasks g.tasks tid with
      | some t => rw [hft] at h; simp at h
      | none =>
        rw [hft] at h
        dsimp only at h
        rw [toggleGoalsList, if_pos hg, toggleTasksList_none _ _ hft, ih h]
    · rw [findTaskGoals, if_neg hg] at h
      rw [toggleGoalsList, if_neg hg, ih h]

theorem toggleGoalsList_some (gs : List Goal) (gid tid : String) (t : Task)
    (h : findTaskGoals gs gid tid = some t) :
    t.id = tid ∧ ∃ l1 l2,
      gs.flatMap (fun g => g.tasks) = l1 ++ t :: l2 ∧
      ∃ gs', toggleGoalsList gs gid tid = some gs' ∧
        gs'.flatMap (fun g => g.tasks) = l1 ++ flipTask t :: l2 := by
  induction gs with
  | nil => exact absurd h (by simp [findTaskGoals])
  | cons g gs ih =>
    by_cases hg : g.id = gid
    · rw [findTaskGoals, if_pos hg] at h
      cases hft : findTaskTasks g.tasks tid with
      | some t0 =>
        rw [hft] at h
        dsimp only at h
        injection h with h
        subst h
        obtain ⟨hid, l1, l2, heq, htog⟩ := toggleTasksList_some g.tasks tid t0 hft
        refine ⟨hid, l1, l2 ++ gs.flatMap (fun g => g.tasks), ?_,
          { g with tasks := l1 ++ flipTask t0 :: l2 } :: gs, ?_, ?_⟩
        · rw [goalsTasks_cons, heq, List.append_assoc]
          rfl
        · rw [toggleGoalsList, if_pos hg, htog]
        · rw [goalsTasks_cons]
          dsimp only
          rw [List.append_assoc]
          rfl
      | none =>
        rw [hft] at h
        dsimp only at h
        obtain ⟨hid, l1, l2, heq, gs', htog, heq'⟩ := ih h
        refine ⟨hid, g.tasks ++ l1, l2, ?_, g :: gs', ?_, ?_⟩
        · rw [goalsTasks_cons, heq, List.append_assoc]
        · rw [toggleGoalsList, if_pos hg, toggleTasksList_none _ _ hft, htog]
        · rw [goalsTasks_cons, heq', List.append_assoc]
    · rw [findTaskGoals, if_neg hg] at h
      obtain ⟨hid, l1, l2, heq, gs', htog, heq'⟩ := ih h
      refine ⟨hid, g.tasks ++ l1, l2, ?_, g :: gs', ?_, ?_⟩
      · rw [goalsTasks_cons, heq, List.append_assoc]
      · rw [toggleGoalsList, if_neg hg, htog]
      · rw [goalsTasks_cons, heq', List.append_assoc]

theorem toggleProjectsList_none (ps : List Project) (pid gid tid : String)
    (h : findTaskProjects ps pid gid tid = none) :
    toggleProjectsList ps pid gid tid = none := by
  induction ps with
  | nil => rfl
  | cons p ps ih =>
    by_cases hp : p.id = pid
    · rw [findTaskProjects, if_pos hp] at h
      cases hfg : findTaskGoals p.goals gid tid with
      | some t => rw [hfg] at h; simp at h
      | none =>
        rw [hfg] at h
        dsimp only at h
        rw [toggleProjectsList, if_pos hp, toggleGoalsList_none _ _ _ hfg,
          ih h]
    · rw [findTaskProjects, if_neg hp] at h
      rw [toggleProjectsList, if_neg hp, ih h]

theorem toggleProjectsList_some (ps : List Project) (pid gid tid : String)
    (t : Task) (h : findTaskProjects ps pid gid tid = some t) :
    t.id = tid ∧ ∃ l1 l2, allTasks ps = l1 ++ t :: l2 ∧
      ∃ ps', toggleProjectsList ps pid gid tid = some ps' ∧
        allTasks ps' = l1 ++ flipTask t :: l2 := by
  induction ps with
  | nil => exact absurd h (by simp [findTaskProjects])
  | cons p ps ih =>
    by_cases hp : p.id = pid
    · rw [findTaskProjects, if_pos hp] at h
      cases hfg : findTaskGoals p.goals gid tid with
      | some t0 =>
        rw [hfg] at h
        dsimp only at h
        injection h with h
        subst h
        obtain ⟨hid, l1, l2, heq, gs', htog, heq'⟩ :=
          toggleGoalsList_some p.goals gid tid t0 hfg
        refine ⟨hid, l1, l2 ++ allTasks ps, ?_,
          { p with goals := gs' } :: ps, ?_, ?_⟩
        · rw [allTasks_cons, heq, List.append_assoc]
          rfl
        · rw [toggleProjectsList, if_pos hp, htog]
        · rw [allTasks_cons]
          dsimp only
          rw [heq', List.append_assoc]
          rfl
      | none =>
        rw [hfg] at h
        dsimp only at h
        obtain ⟨hid, l1, l2, heq, ps', htog, heq'⟩ := ih h
        refine ⟨hid, p.goals.flatMap (fun g => g.tasks) ++ l1, l2, ?_,
          p :: ps', ?_, ?_⟩
        · rw [allTasks_cons, heq, List.append_assoc]
        · rw [toggleProjectsList, if_pos hp, toggleGoalsList_none _ _ _ hfg,
            htog]
        · rw [allTasks_cons, heq', List.append_assoc]
    · rw [findTaskProjects, if_neg hp] at h
      obtain ⟨hid, l1, l2, heq, ps', htog, heq'⟩ := ih h
      refine ⟨hid, p.goals.flatMap (fun g => g.tasks) ++ l1, l2, ?_,
        p :: ps', ?_, ?_⟩
      · rw [allTasks_cons, heq, List.append_assoc]
      · rw [toggleProjectsList, if_neg hp, htog]
      · rw [allTasks_cons, heq', List.append_assoc]

/-- C8: a toggle_task call whose path does not resolve appends a soft
Task-not-found log entry and leaves the projects (so every completed
flag) unchanged; a call whose path resolves flips exactly the one task
find_task locates, runs the full recompute, and appends one log entry
stating whether the task was completed or reopened.  Both cases are total
reductions of the function, so no exception path exists. -/
theorem claim_C8_toggle_task (s : GameState) (pid gid tid stamp : String) :
    (ProjectManager.find_task s pid gid tid = none →
      ProjectManager.toggle_task s pid gid tid stamp =
        s.log stamp ("Task not found: " ++ pid ++ "/" ++ gid ++ "/" ++ tid) ∧
      (ProjectManager.toggle_task s pid gid tid stamp).projects =
        s.projects) ∧
    (∀ t, ProjectManager.find_task s pid gid tid = some t →
      ∃ ps', toggleProjectsList s.projects pid gid tid = some ps' ∧
        ProjectManager.toggle_task s pid gid tid stamp =
          (GameState.recompute_project_status
              { s with projects := ps' }).log stamp
            ((if !t.completed then "Task completed: " else "Task reopened: ")
              ++ t.name) ∧
        t.id = tid ∧
        ∃ l1 l2, allTasks s.projects = l1 ++ t :: l2 ∧
          allTasks ps' = l1 ++ flipTask t :: l2) := by
  constructor
  · intro h
    have h1 : ProjectManager.toggle_task s pid gid tid stamp =
        s.log stamp ("Task not found: " ++ pid ++ "/" ++ gid ++ "/" ++ tid) := by
      unfold ProjectManager.toggle_task
      rw [h]
    exact ⟨h1, by rw [h1]; exact log_projects s stamp _⟩
  · intro t h
    obtain ⟨hid, l1, l2, heq, ps', htog, heq'⟩ :=
      toggleProjectsList_some s.projects pid gid tid t h
    refine ⟨ps', htog, ?_, hid, l1, l2, heq, heq'⟩
    unfold ProjectManager.toggle_task
    rw [h]
    dsimp only
    rw [htog, Option.getD_some]

def c8State : GameState := { projects := [c7Project] }

theorem claim_C8_toggle_task_witness :
    ProjectManager.toggle_task c8State "p1" "missing" "t1" "09:00:00" =
      c8State.log "09:00:00"
        ("Task not found: " ++ "p1" ++ "/" ++ "missing" ++ "/" ++ "t1") ∧
    (ProjectManager.toggle_task c8State "p1" "missing" "t1" "09:00:00").projects =
      c8State.projects :=
  (claim_C8_toggle_task c8State "p1" "missing" "t1" "09:00:00").1 (by decide)

end Aetherfall
